import Mathlib

/-!
Verification of the client-side RAG pipeline of the ProjetGMAO repository:
document chunking (`chunkText`, `chunkStructuredText`), redundancy merging
(`mergeSimilarChunks`), the local vector store (`LocalVectorStore.search`),
document processing (`processStoredDocument`), document deletion
(`deleteDocument`) and the query engine (`MaintenanceAgent.processQuery`).

Modelling conventions:
* JavaScript numbers are idealised as real numbers (`ℝ`); `Math.sqrt` is
  `Real.sqrt`.
* Text is modelled as `List Char`; record ids, user ids, file names and
  mime types as `String`.
* A JavaScript function that can throw is modelled with `Option` / an
  explicit error type; `none` / `.error` is the thrown exception.
* The IndexedDB-backed store is modelled as lists of records; the
  secondary-index read `getItemsByIndex(store, "userId", u)` is a filter
  on the `userId` field.
-/

/-- The dot-product loop shared by both `cosineSimilarity` implementations:
`for i < a.length: dot += a[i]*b[i]`.  Both call sites only reach the loop
with `a.length = b.length`, where the loop is exactly the sum of the
pointwise products. -/
def dotProduct (a b : List ℝ) : ℝ := (List.zipWith (· * ·) a b).sum

/-- From src/unnamed/part_006 (vector store).  Source: `cosineSimilarity`
throws `"Vectors must have the same length"` on a length mismatch
(modelled as `none`); computes `normA`, `normB` as the square roots of the
sums of squares, returns `0` if either is zero, else
`dot / (normA * normB)`. -/
noncomputable def cosineSimilarityStore (a b : List ℝ) : Option ℝ :=
  if a.length ≠ b.length then none
  else if Real.sqrt (dotProduct a a) = 0 ∨ Real.sqrt (dotProduct b b) = 0 then some 0
  else some (dotProduct a b / (Real.sqrt (dotProduct a a) * Real.sqrt (dotProduct b b)))

/-- From src/apps/web/lib/document-processing/processor.ts lines 333-348
(used by the Redundancy Merger).  Source: returns `0` on a length mismatch
(total, never throws); computes `denominator = sqrt(normA) * sqrt(normB)`,
returns `0` if the denominator is zero, else `dot / denominator`. -/
noncomputable def cosineSimilarityMerge (a b : List ℝ) : ℝ :=
  if a.length ≠ b.length then 0
  else if Real.sqrt (dotProduct a a) * Real.sqrt (dotProduct b b) = 0 then 0
  else dotProduct a b / (Real.sqrt (dotProduct a a) * Real.sqrt (dotProduct b b))

/-- Record of the `embeddings` object store
(src/apps/web/lib/client-storage/db-migration.ts, `StoredEmbedding`). -/
structure StoredEmbedding where
  id : String
  documentId : String
  chunkIndex : Nat
  text : List Char
  embedding : List ℝ
  userId : String
  createdAt : Nat

/-- Result record of `LocalVectorStore.search` (src/unnamed/part_006). -/
structure SearchResult where
  id : String
  documentId : String
  text : List Char
  similarity : ℝ
  chunkIndex : Nat

/-- The IndexedDB secondary-index read
`getItemsByIndex("embeddings", "userId", userId)`: all records whose
`userId` field equals the requested value. -/
def embeddingsByUser (db : List StoredEmbedding) (userId : String) : List StoredEmbedding :=
  db.filter (fun e => e.userId == userId)

/-- The `embeddings.map(...)` step of `search`: one `SearchResult` per
candidate record, with `similarity` computed by the throwing
`cosineSimilarity`; the first mismatched-length record aborts the whole
map (`none`). -/
noncomputable def searchCompute (q : List ℝ) : List StoredEmbedding → Option (List SearchResult)
  | [] => some []
  | e :: es =>
    match cosineSimilarityStore q e.embedding, searchCompute q es with
    | some s, some rs =>
        some ({ id := e.id, documentId := e.documentId, text := e.text,
                similarity := s, chunkIndex := e.chunkIndex } :: rs)
    | _, _ => none

/-- The `results.filter((r) => r.similarity >= similarityThreshold)` step. -/
noncomputable def filterGE (θ : ℝ) : List SearchResult → List SearchResult
  | [] => []
  | r :: rs => if θ ≤ r.similarity then r :: filterGE θ rs else filterGE θ rs

/-- One step of a stable insertion sort modelling the JavaScript stable
`sort((a, b) => b.similarity - a.similarity)`: the inserted (originally
later) element goes after every strictly greater element and before the
first element that does not exceed it. -/
noncomputable def insertDesc (r : SearchResult) : List SearchResult → List SearchResult
  | [] => [r]
  | x :: xs => if r.similarity < x.similarity then x :: insertDesc r xs else r :: x :: xs

/-- Stable sort in descending order of `similarity`, modelling the
JavaScript `Array.prototype.sort` call in `search`. -/
noncomputable def sortDesc : List SearchResult → List SearchResult
  | [] => []
  | r :: rs => insertDesc r (sortDesc rs)

/-- From src/unnamed/part_006 lines 54-104, `LocalVectorStore.search`:
fetch the records of `userId` by index, return `[]` if there are none,
map every candidate to a scored result (a length-mismatch throws, `none`),
filter by `similarity >= similarityThreshold`, sort descending by
similarity, return the first `topK`. -/
noncomputable def search (db : List StoredEmbedding) (queryEmbedding : List ℝ)
    (userId : String) (topK : Nat) (similarityThreshold : ℝ) : Option (List SearchResult) :=
  if (embeddingsByUser db userId).isEmpty then some []
  else
    match searchCompute queryEmbedding (embeddingsByUser db userId) with
    | none => none
    | some results => some ((sortDesc (filterGE similarityThreshold results)).take topK)

/-- Correspondence between a candidate record and its scored result. -/
def resultOf (q : List ℝ) (e : StoredEmbedding) (r : SearchResult) : Prop :=
  r.id = e.id ∧ r.documentId = e.documentId ∧ r.text = e.text ∧
  r.chunkIndex = e.chunkIndex ∧ cosineSimilarityStore q e.embedding = some r.similarity

/-- Concrete owner-A record used in witnesses. -/
noncomputable def e1W : StoredEmbedding :=
  { id := "e1", documentId := "d1", chunkIndex := 0, text := ['p'],
    embedding := [(1 : ℝ), 0], userId := "A", createdAt := 0 }

/-- Concrete owner-B record used in witnesses. -/
noncomputable def e2W : StoredEmbedding :=
  { id := "e2", documentId := "d2", chunkIndex := 0, text := ['q'],
    embedding := [(0 : ℝ), 1], userId := "B", createdAt := 0 }

/-- Concrete document-ownership map used in witnesses. -/
def docOwnerW : String → String := fun d => if d = "d1" then "A" else "B"

/-- The scored result of searching `[e1W, e2W]` as owner A with query
`[1, 0]`. -/
noncomputable def r1W : SearchResult :=
  { id := "e1", documentId := "d1", text := ['p'], similarity := 1, chunkIndex := 0 }

/-- Concrete record with a three-dimensional embedding, used in the C7
witness against a two-dimensional query. -/
noncomputable def e3W : StoredEmbedding :=
  { id := "e3", documentId := "d3", chunkIndex := 0, text := ['r'],
    embedding := [(1 : ℝ), 2, 3], userId := "A", createdAt := 0 }

/-- JavaScript `String.prototype.slice` on character lists: negative
indices count from the end of the string, and indices are clamped to the
valid range. -/
def jsSlice (text : List Char) (s e : Int) : List Char :=
  let sc := if s < 0 then max ((text.length : Int) + s) 0 else min s (text.length : Int)
  let ec := if e < 0 then max ((text.length : Int) + e) 0 else min e (text.length : Int)
  if sc < ec then (text.drop sc.toNat).take (ec - sc).toNat else []

/-- JavaScript `String.prototype.trim` on character lists: strip leading
and trailing whitespace. -/
def trimChars (t : List Char) : List Char :=
  ((t.dropWhile fun c => c.isWhitespace).reverse.dropWhile fun c => c.isWhitespace).reverse

/-- The sliding-window loop of `chunkText`
(src/apps/web/lib/document-processing/processor.ts lines 241-264), one
recursive call per loop iteration, with explicit fuel bounding the number
of iterations: `none` means the loop ran that many iterations without
terminating (the source loop has no fuel).  Each iteration emits
`text.slice(start, end).trim()` when non-empty, breaks when `end` reaches
the end of the text, advances `start` to `end - overlap`, and when the new
`start` is at most `chunks.length * (chunkSize - overlap)` re-advances it
to `end - min(overlap, floor(chunkSize / 2))`. -/
def chunkLoop (text : List Char) (chunkSize overlap : Nat) :
    Nat → Int → List (List Char) → Option (List (List Char))
  | 0, _, _ => none
  | fuel + 1, start, chunks =>
    if start < (text.length : Int) then
      let e := min (start + chunkSize) (text.length : Int)
      let chunk := trimChars (jsSlice text start e)
      let chunks1 := if chunk.isEmpty then chunks else chunks ++ [chunk]
      if (text.length : Int) ≤ e then some chunks1
      else
        let start1 : Int := e - overlap
        let start2 : Int :=
          if start1 ≤ (chunks1.length : Int) * ((chunkSize : Int) - (overlap : Int))
          then e - (min overlap (chunkSize / 2) : Nat)
          else start1
        chunkLoop text chunkSize overlap fuel start2 chunks1
    else some chunks

/-- Splits a character list at every occurrence of a separator character
(JavaScript `String.prototype.split` with a one-character separator). -/
def splitOnChar (sep : Char) (t : List Char) : List (List Char) :=
  t.foldr
    (fun c acc =>
      if c = sep then [] :: acc
      else
        match acc with
        | [] => [[c]]
        | g :: gs => (c :: g) :: gs)
    [[]]

/-- From processor.ts lines 273-328, `chunkStructuredText`: keep the
header block (the lines before a `---` separator or the first `Row ` line)
at the top of every emitted chunk; accumulate the remaining lines,
flushing the accumulated group when a new `Row ` line would push the group
plus header past `maxChunkSize`; emit the final group; fall back to the
whole text as a single chunk when nothing was emitted. -/
def chunkStructuredText (text : List Char) (maxChunkSize : Nat) : List (List Char) :=
  let lines := splitOnChar '\n' text
  let headerLines := lines.takeWhile fun line =>
    !(decide (List.IsInfix ['-', '-', '-'] line) || List.isPrefixOf ['R', 'o', 'w', ' '] line)
  let header := List.intercalate ['\n'] headerLines
  let rest0 := lines.drop headerLines.length
  let rest :=
    match rest0 with
    | [] => []
    | l :: ls => if List.IsInfix ['-', '-', '-'] l then ls else rest0
  let step := fun (st : List (List Char) × List (List Char) × Nat) (line : List Char) =>
    let flushed :=
      if List.isPrefixOf ['R', 'o', 'w', ' '] line && !st.2.1.isEmpty &&
          decide (maxChunkSize < st.2.2 + line.length + header.length)
      then (st.1 ++ [header ++ '\n' :: List.intercalate ['\n'] st.2.1], ([] : List (List Char)), 0)
      else st
    (flushed.1, flushed.2.1 ++ [line], flushed.2.2 + line.length + 1)
  let final := rest.foldl step ([], [], 0)
  let chunks :=
    if final.2.1.isEmpty then final.1
    else final.1 ++ [header ++ '\n' :: List.intercalate ['\n'] final.2.1]
  if chunks.isEmpty then [text] else chunks

/-- From processor.ts lines 230-267, `chunkText`: structured input is
chunked row-wise by `chunkStructuredText`; otherwise the sliding-window
loop runs (fueled; the source loop is unbounded, so `none` models a
non-terminating run). -/
def chunkText (text : List Char) (chunkSize overlap : Nat) (isStructured : Bool)
    (fuel : Nat) : Option (List (List Char)) :=
  if isStructured then some (chunkStructuredText text chunkSize)
  else chunkLoop text chunkSize overlap fuel 0 []

/-- Splits a character list at every sentence-terminal punctuation mark
`.`, `!`, `?` (the JavaScript split on `[.!?]+` in `mergeSimilarChunks`;
the regular expression collapses runs of terminators while this splitter
emits empty segments between adjacent terminators — the difference
disappears after the empty-after-trim filter that follows it). -/
def splitSentences (t : List Char) : List (List Char) :=
  t.foldr
    (fun c acc =>
      if c = '.' ∨ c = '!' ∨ c = '?' then [] :: acc
      else
        match acc with
        | [] => [[c]]
        | g :: gs => (c :: g) :: gs)
    [[]]

/-- JavaScript `[...new Set(list)]`: deduplicate keeping the first
occurrence of each element, here with an explicit seen accumulator. -/
def dedupFirstAux {α : Type} [DecidableEq α] (seen : List α) : List α → List α
  | [] => []
  | a :: l => if a ∈ seen then dedupFirstAux seen l else a :: dedupFirstAux (a :: seen) l

/-- JavaScript `[...new Set(list)]` (first-occurrence deduplication). -/
def dedupFirst {α : Type} [DecidableEq α] (l : List α) : List α := dedupFirstAux [] l

/-- Text of a merged cluster (processor.ts lines 396-403): join the member
chunks with a space, split on sentence-terminal punctuation, trim each
sentence, drop empties, deduplicate keeping first appearance, re-join with
`". "` and append a final `"."`. -/
def mergeClusterText (texts : List (List Char)) : List Char :=
  List.intercalate ['.', ' ']
    (dedupFirst (((splitSentences (List.intercalate [' '] texts)).map trimChars).filter
      (fun s => !s.isEmpty))) ++ ['.']

/-- One member folded into the running average (processor.ts lines
407-413): position `k < emb.length` receives `emb[k] / count`.  A member
longer than the accumulator extends it; at those positions the source
would produce NaN (`undefined + x`), which cannot occur for a positive
threshold (all cluster members then share the seed length, because a
mismatched pair has similarity 0 < threshold) and is idealised here as
adding to 0. -/
noncomputable def addScaled (count : ℝ) : List ℝ → List ℝ → List ℝ
  | avg, [] => avg
  | [], x :: emb => x / count :: addScaled count [] emb
  | a :: avg, x :: emb => (a + x / count) :: addScaled count avg emb

/-- The per-dimension arithmetic mean of the cluster members, starting
from `new Array(currentEmbedding.length).fill(0)`. -/
noncomputable def avgEmbedding (seedLen : Nat) (count : ℝ) (members : List (List ℝ)) : List ℝ :=
  members.foldl (fun acc emb => addScaled count acc emb) (List.replicate seedLen 0)

/-- The inner `j` loop of `mergeSimilarChunks` (processor.ts lines
380-389): scan the indices after `i` in order, skip already-processed
ones, and collect every `j` whose cosine similarity to the seed embedding
meets or exceeds the threshold. -/
noncomputable def collectSimilar (cur : List ℝ) (θ : ℝ) (embs : List (List ℝ))
    (processed : List Nat) : List Nat → List Nat
  | [] => []
  | j :: rest =>
    if j ∈ processed then collectSimilar cur θ embs processed rest
    else if θ ≤ cosineSimilarityMerge cur (embs.getD j []) then
      j :: collectSimilar cur θ embs processed rest
    else collectSimilar cur θ embs processed rest

/-- The outer `i` loop of `mergeSimilarChunks` (processor.ts lines
372-423): iterate the chunk indices in order; a seed whose collected
cluster is a singleton passes its chunk and embedding through unchanged;
a larger cluster contributes one merged chunk (deduplicated sentences) and
the per-dimension mean of the member embeddings, and all its members are
marked processed. -/
noncomputable def mergePass (chunks : List (List Char)) (embs : List (List ℝ)) (θ : ℝ) :
    List Nat → List Nat → List (List Char) × List (List ℝ)
  | [], _ => ([], [])
  | i :: rest, processed =>
    if i ∈ processed then mergePass chunks embs θ rest processed
    else
      if (collectSimilar (embs.getD i []) θ embs processed rest).isEmpty then
        ((chunks.getD i []) :: (mergePass chunks embs θ rest (processed ++ [i])).1,
         (embs.getD i []) :: (mergePass chunks embs θ rest (processed ++ [i])).2)
      else
        (mergeClusterText ((i :: collectSimilar (embs.getD i []) θ embs processed rest).map
            (fun idx => chunks.getD idx [])) ::
          (mergePass chunks embs θ rest
            (processed ++ i :: collectSimilar (embs.getD i []) θ embs processed rest)).1,
         avgEmbedding (embs.getD i []).length
            (((i :: collectSimilar (embs.getD i []) θ embs processed rest).length : Nat) : ℝ)
            ((i :: collectSimilar (embs.getD i []) θ embs processed rest).map
              (fun idx => embs.getD idx [])) ::
          (mergePass chunks embs θ rest
            (processed ++ i :: collectSimilar (embs.getD i []) θ embs processed rest)).2)

/-- From processor.ts lines 357-428, `mergeSimilarChunks`: throws when the
chunk and embedding lists disagree in length (`none`), otherwise runs the
clustering pass over all indices in order. -/
noncomputable def mergeSimilarChunks (chunks : List (List Char)) (embs : List (List ℝ))
    (θ : ℝ) : Option (List (List Char) × List (List ℝ)) :=
  if chunks.length ≠ embs.length then none
  else some (mergePass chunks embs θ (List.range chunks.length) [])

/-- Record of the `documents` object store (db-migration.ts,
`StoredDocument`); the optional raw byte payload is abstracted to its
presence, since only the external extractor reads it. -/
structure StoredDocument where
  id : String
  fileName : String
  mimeType : String
  size : Nat
  uploadedAt : Nat
  textContent : List Char
  userId : String
  processed : Bool
  hasFileData : Bool

/-- The two object stores the processing pipeline touches. -/
structure StoreState where
  documents : List StoredDocument
  embeddings : List StoredEmbedding

/-- `getItem("documents", id)`: lookup by key. -/
def getDocument (st : StoreState) (docId : String) : Option StoredDocument :=
  st.documents.find? (fun d => d.id == docId)

/-- JavaScript `String.prototype.endsWith` on the character data of the
strings (the built-in `String.endsWith` does not reduce in the kernel). -/
def strEndsWith (s suffix : String) : Bool := suffix.data.isSuffixOf s.data

/-- `updateItem` (IndexedDB `put`): full replace by key, insert when the
key is new. -/
def putDocument (st : StoreState) (doc : StoredDocument) : StoreState :=
  if st.documents.any (fun d => d.id == doc.id) then
    { st with documents := st.documents.map (fun d => if d.id == doc.id then doc else d) }
  else
    { st with documents := st.documents ++ [doc] }

/-- The errors `processStoredDocument` can throw (spec section 7 names
the first six; `chunkingDiverged` marks a sliding-window run that
exhausted its fuel, and `storageError` a failed embedding write). -/
inductive ProcError
  | notConfigured
  | notFound
  | unauthorized
  | alreadyProcessed
  | extractionFailed
  | embeddingServiceError
  | mergeLengthMismatch
  | chunkingDiverged
  | storageError

/-- Result record of `processStoredDocument` (processor.ts,
`ProcessingResult`). -/
structure ProcessingResult where
  documentId : String
  fileName : String
  chunksCreated : Nat
  embeddingsCreated : Nat

/-- External collaborators and environment of `processStoredDocument`:
whether a Cohere client is configured, the text-extraction service
(`none` = extraction throws), the embedding service (one call per batch,
`none` = the call throws), the generated record ids, the clock, and
which individual embedding writes fail. -/
structure ProcEnv where
  hasClient : Bool
  extract : StoredDocument → Option (List Char)
  embed : List (List Char) → Option (List (List ℝ))
  newId : Nat → String
  now : Nat
  addFails : StoredEmbedding → Bool

/-- Consecutive batches of at most `n` elements: the embedding loop takes
`chunks.slice(i, i + batchSize)` for `i = 0, batchSize, 2*batchSize, ...`
(the call site fixes `batchSize = 90`). -/
def toBatches (n : Nat) : List (List Char) → List (List (List Char))
  | [] => []
  | x :: xs =>
    if _h : n = 0 then []
    else (x :: xs).take n :: toBatches n ((x :: xs).drop n)
termination_by l => l.length
decreasing_by simp [List.length_drop]; omega

/-- The batched embedding loop (processor.ts lines 554-571): one external
call per batch, concatenating the returned vectors in order; a failing
batch aborts the whole stage. -/
def embedAll (embed : List (List Char) → Option (List (List ℝ))) :
    List (List (List Char)) → Option (List (List ℝ))
  | [] => some []
  | b :: bs =>
    match embed b, embedAll embed bs with
    | some vs, some rest => some (vs ++ rest)
    | _, _ => none

/-- The embedding records built for the merged chunks (processor.ts lines
599-610): record `idx` receives a fresh id, the document id, chunk index
`idx`, the merged text, the merged embedding (`?? []`), the caller id and
the clock value. -/
def buildRecords (env : ProcEnv) (docId userId : String)
    (mergedChunks : List (List Char)) (mergedEmbeddings : List (List ℝ)) :
    List StoredEmbedding :=
  (List.range mergedChunks.length).map (fun idx =>
    { id := env.newId idx, documentId := docId, chunkIndex := idx,
      text := mergedChunks.getD idx [], embedding := mergedEmbeddings.getD idx [],
      userId := userId, createdAt := env.now })

/-- The storing stage (processor.ts lines 599-616): `Promise.all` over one
independent `addEmbedding` transaction per record.  Every transaction runs
regardless of the others, so the records whose writes succeed are
persisted even when a sibling write fails; the stage as a whole succeeds
only when every write succeeded. -/
def commitEmbeddings (st : StoreState) (recs : List StoredEmbedding)
    (addFails : StoredEmbedding → Bool) : StoreState × Bool :=
  ({ st with embeddings := st.embeddings ++ recs.filter (fun r => !addFails r) },
   recs.all (fun r => !addFails r))

/-- From processor.ts lines 484-631, `processStoredDocument` with the
external collaborators supplied by `env`.  Step order as in the source:
require a configured client; look the document up; reject a different
owner (`Unauthorized`) and an already-processed document; when the stored
text is empty and raw bytes are present, extract and persist the text at
once; reject empty text; chunk with size 1000 / overlap 200 (structured
mode for CSV; the fueled loop gets `length + 1` fuel, which the 1000/200
parameters never exhaust); embed in batches of 90; merge at threshold
0.95 for CSV and 0.92 otherwise; commit the records with `Promise.all`;
mark the document processed. -/
noncomputable def processStoredDocument (st : StoreState) (docId userId : String)
    (env : ProcEnv) : Except ProcError ProcessingResult × StoreState :=
  if ¬env.hasClient then (.error .notConfigured, st)
  else
    match getDocument st docId with
    | none => (.error .notFound, st)
    | some document =>
      if document.userId ≠ userId then (.error .unauthorized, st)
      else if document.processed then (.error .alreadyProcessed, st)
      else
        match (if document.textContent.isEmpty ∧ document.hasFileData
               then (env.extract document).map
                 (fun t => (t, putDocument st { document with textContent := t }))
               else some (document.textContent, st)) with
        | none => (.error .extractionFailed, st)
        | some (textContent, st1) =>
          if textContent.isEmpty then (.error .extractionFailed, st1)
          else
            match chunkText textContent 1000 200
                (document.mimeType == "text/csv" || strEndsWith document.fileName ".csv")
                (textContent.length + 1) with
            | none => (.error .chunkingDiverged, st1)
            | some chunks =>
              match embedAll env.embed (toBatches 90 chunks) with
              | none => (.error .embeddingServiceError, st1)
              | some allEmbeddings =>
                match mergeSimilarChunks chunks allEmbeddings
                    (if document.mimeType == "text/csv" || strEndsWith document.fileName ".csv"
                     then 95 / 100 else 92 / 100) with
                | none => (.error .mergeLengthMismatch, st1)
                | some merged =>
                  match commitEmbeddings st1
                      (buildRecords env docId userId merged.1 merged.2) env.addFails with
                  | (st2, false) => (.error .storageError, st2)
                  | (st2, true) =>
                    (.ok { documentId := docId, fileName := document.fileName,
                           chunksCreated := merged.1.length,
                           embeddingsCreated := merged.2.length },
                     putDocument st2
                       { document with textContent := textContent, processed := true })

/-- From src/apps/web/lib/supabase/use-session.ts lines 153-168,
`deleteDocument`: fetch the embeddings of the document by index, delete
each of them by id, then delete the document by id.  The function takes no
caller id and performs no ownership check. -/
def deleteDocument (st : StoreState) (documentId : String) : StoreState :=
  { documents := st.documents.filter (fun d => !(d.id == documentId)),
    embeddings := st.embeddings.filter (fun e =>
      !(((st.embeddings.filter (fun x => x.documentId == documentId)).map
          (fun x => x.id)).contains e.id)) }

/-- Concrete owner-B document used in the C2 scenario. -/
def docB : StoredDocument :=
  { id := "dB", fileName := "b.txt", mimeType := "text/plain", size := 1,
    uploadedAt := 0, textContent := ['b'], userId := "B", processed := true,
    hasFileData := false }

/-- Concrete owner-B embedding record used in the C2 scenario. -/
noncomputable def embB : StoredEmbedding :=
  { id := "eB", documentId := "dB", chunkIndex := 0, text := ['b'],
    embedding := [(1 : ℝ)], userId := "B", createdAt := 0 }

/-- Store holding one owner-B document with one embedding record. -/
noncomputable def stB : StoreState := { documents := [docB], embeddings := [embB] }

/-- Trivial environment for witnesses: configured client, failing external
services, no write failures. -/
def envW : ProcEnv :=
  { hasClient := true, extract := fun _ => none, embed := fun _ => none,
    newId := fun _ => "", now := 0, addFails := fun _ => false }

/-- The 1005-character text of the C3 scenario. -/
def textC : List Char := List.replicate 1005 'a'

/-- Concrete unprocessed owner-A document whose extracted text is already
present and chunks into two sliding windows (1000 and 205 characters). -/
def docC : StoredDocument :=
  { id := "dC", fileName := "a.txt", mimeType := "text/plain", size := 1005,
    uploadedAt := 0, textContent := textC, userId := "A", processed := false,
    hasFileData := false }

/-- Environment of the C3 scenario: the embedding service returns the
orthogonal vectors `[1,0]` and `[0,1]` for the two chunks (so nothing
merges at threshold 0.92), and the write of the second record fails. -/
noncomputable def envC : ProcEnv :=
  { hasClient := true, extract := fun _ => none,
    embed := fun _ => some [[(1 : ℝ), 0], [(0 : ℝ), 1]],
    newId := fun n => if n = 0 then "r0" else "r1", now := 7,
    addFails := fun r => r.chunkIndex == 1 }

/-- The C3 environment with no write failures. -/
noncomputable def envCok : ProcEnv := { envC with addFails := fun _ => false }

/-- The first embedding record built in the C3 scenario. -/
noncomputable def rec0C : StoredEmbedding :=
  { id := "r0", documentId := "dC", chunkIndex := 0, text := List.replicate 1000 'a',
    embedding := [(1 : ℝ), 0], userId := "A", createdAt := 7 }

/-- The second embedding record built in the C3 scenario. -/
noncomputable def rec1C : StoredEmbedding :=
  { id := "r1", documentId := "dC", chunkIndex := 1, text := List.replicate 205 'a',
    embedding := [(0 : ℝ), 1], userId := "A", createdAt := 7 }

/-- Chat-history record (db-migration.ts, `ChatMessage`). -/
structure ChatMessage where
  id : String
  userId : String
  role : String
  content : List Char
  timestamp : Nat
  documentIds : Option (List String)

/-- The request body assembled by `CohereClient.chat`
(src/apps/web/lib/cohere/client.ts lines 111-133). -/
structure ChatRequest where
  message : List Char
  model : String
  temperature : ℝ
  maxTokens : Nat
  preamble : Option (List Char)
  documents : Option (List (String × List Char))

/-- From client.ts lines 111-133: the `preamble` is attached only when
supplied and non-empty (a JavaScript truthiness check), and the
`documents` parameter is attached exactly when the supplied context is
non-empty, one `{id: doc_<idx>, text}` entry per evidence chunk. -/
def buildChatRequest (message : List Char) (context : Option (List (List Char)))
    (model : String) (temperature : ℝ) (maxTokens : Nat)
    (preamble : Option (List Char)) : ChatRequest :=
  { message := message, model := model, temperature := temperature,
    maxTokens := maxTokens,
    preamble :=
      match preamble with
      | some p => if p.isEmpty then none else some p
      | none => none,
    documents :=
      match context with
      | some ctx =>
        if 0 < ctx.length then
          some (ctx.enum.map (fun p => ("doc_" ++ toString p.1, p.2)))
        else none
      | none => none }

/-- Response record of `MaintenanceAgent.processQuery`
(src/unnamed/part_005, `AgentResponse`). -/
structure AgentResponse where
  message : List Char
  sources : Option (List String)
  sourceNames : Option (List String)

/-- Agent configuration (src/unnamed/part_005, `AgentConfig`, with the
constructor defaults filled in). -/
structure AgentConfig where
  systemPrompt : List Char
  temperature : ℝ
  maxTokens : Nat
  useRAG : Bool
  topK : Nat
  similarityThreshold : ℝ

/-- External collaborators of `processQuery`: whether a Cohere client is
configured, the query-embedding call (`none` = the call throws), the
generation call (`none` = the call throws), fresh message ids and the
clock. -/
structure QueryEnv where
  hasClient : Bool
  embedQuery : List Char → Option (List (List ℝ))
  gen : ChatRequest → Option (List Char)
  newId : Nat → String
  now : Nat

/-- Errors of `processQuery`: missing credential, a thrown retrieval step
(query embedding or vector-store search), or a thrown generation call. -/
inductive QueryError
  | notConfigured
  | retrievalFailed
  | genFailed

/-- From src/unnamed/part_005 lines 177-192, `getDocumentNames`: look
every source document id up and collect the file names of those found
(ids that resolve to nothing are skipped). -/
def getDocumentNames (docs : List StoredDocument) (documentIds : List String) :
    List String :=
  documentIds.foldr
    (fun docId acc =>
      match docs.find? (fun d => d.id == docId) with
      | some d => d.fileName :: acc
      | none => acc) []

/-- From src/unnamed/part_005 lines 124-172, `retrieveContext`: without a
client the result is empty (not an error); the query is embedded (a
thrown call propagates, `none`); an absent query vector yields the empty
result; the vector store is searched (a thrown call propagates); the
result is the chunk texts in rank order plus the first-occurrence
de-duplicated list of their source document ids. -/
noncomputable def retrieveContext (db : List StoredEmbedding) (userId : String)
    (config : AgentConfig) (env : QueryEnv) (query : List Char) :
    Option (List (List Char) × List String) :=
  if ¬env.hasClient then some ([], [])
  else
    match env.embedQuery query with
    | none => none
    | some vecs =>
      match vecs.head? with
      | none => some ([], [])
      | some queryEmbedding =>
        match search db queryEmbedding userId config.topK config.similarityThreshold with
        | none => none
        | some results =>
          some (results.map (fun r => r.text),
            dedupFirst (results.map (fun r => r.documentId)))

/-- From src/unnamed/part_005 lines 76-119, `MaintenanceAgent.processQuery`:
require a client; with RAG enabled retrieve context (documents, sources)
and resolve source names only when at least one source came back; call the
generation service via `CohereClient.chat` with model
`command-a-03-2025`, the configured temperature, token limit and system
preamble; append the user and assistant messages to the chat history (the
assistant message tagged with the sources); return the answer, the
sources and the resolved names. -/
noncomputable def processQuery (db : List StoredEmbedding)
    (docs : List StoredDocument) (history : List ChatMessage) (userId : String)
    (config : AgentConfig) (env : QueryEnv) (query : List Char) :
    Except QueryError (AgentResponse × List ChatMessage) :=
  if ¬env.hasClient then .error .notConfigured
  else
    match (if config.useRAG then
             match retrieveContext db userId config env query with
             | none => none
             | some rs => some (some rs)
           else some none) with
    | none => .error .retrievalFailed
    | some ctxOpt =>
      match env.gen (buildChatRequest query (ctxOpt.map (fun p => p.1))
          "command-a-03-2025" config.temperature config.maxTokens
          (some config.systemPrompt)) with
      | none => .error .genFailed
      | some response =>
        .ok ({ message := response,
               sources := ctxOpt.map (fun p => p.2),
               sourceNames :=
                 match ctxOpt.map (fun p => p.2) with
                 | some ss =>
                   if 0 < ss.length then some (getDocumentNames docs ss) else none
                 | none => none },
             history ++
               [{ id := env.newId 0, userId := userId, role := "user",
                  content := query, timestamp := env.now, documentIds := none },
                { id := env.newId 1, userId := userId, role := "assistant",
                  content := response, timestamp := env.now,
                  documentIds := ctxOpt.map (fun p => p.2) }])

/-- Query environment used in the C9 witness. -/
noncomputable def queryEnvW : QueryEnv :=
  { hasClient := true, embedQuery := fun _ => some [[(1 : ℝ)]],
    gen := fun _ => some ['o', 'k'], newId := fun _ => "m", now := 0 }

/-- Agent configuration used in the C9 witness (the constructor
defaults of `MaintenanceAgent`). -/
noncomputable def agentConfigW : AgentConfig :=
  { systemPrompt := ['s'], temperature := 3 / 10, maxTokens := 2000,
    useRAG := true, topK := 15, similarityThreshold := 35 / 100 }

lemma zipWith_mul_self (a : List ℝ) :
    List.zipWith (· * ·) a a = a.map (fun x => x * x) := by
  induction a with
  | nil => rfl
  | cons x xs ih => simp [List.zipWith, ih]

lemma dotProduct_self_nonneg (a : List ℝ) : 0 ≤ dotProduct a a := by
  unfold dotProduct
  rw [zipWith_mul_self]
  apply List.sum_nonneg
  intro x hx
  rcases List.mem_map.mp hx with ⟨y, _, rfl⟩
  exact mul_self_nonneg y

lemma dotProduct_self_pos {v : List ℝ} (hv : ∃ x ∈ v, x ≠ 0) :
    0 < dotProduct v v := by
  rcases hv with ⟨x, hmem, hx⟩
  have hle : x * x ≤ dotProduct v v := by
    unfold dotProduct
    rw [zipWith_mul_self]
    refine List.single_le_sum ?_ (x * x) (List.mem_map.mpr ⟨x, hmem, rfl⟩)
    intro y hy
    rcases List.mem_map.mp hy with ⟨z, _, rfl⟩
    exact mul_self_nonneg z
  exact lt_of_lt_of_le (mul_self_pos.mpr hx) hle

lemma dotProduct_comm (a b : List ℝ) : dotProduct a b = dotProduct b a := by
  unfold dotProduct
  rw [List.zipWith_comm_of_comm]
  intro x y
  exact mul_comm x y

lemma dotProduct_neg_right (a b : List ℝ) :
    dotProduct a (b.map (fun x => -x)) = -dotProduct a b := by
  unfold dotProduct
  induction a generalizing b with
  | nil => simp
  | cons x xs ih =>
    cases b with
    | nil => simp
    | cons y ys => simp [ih ys]; ring

lemma dotProduct_zero_right (a : List ℝ) (n : Nat) :
    dotProduct a (List.replicate n 0) = 0 := by
  unfold dotProduct
  induction a generalizing n with
  | nil => simp
  | cons x xs ih =>
    cases n with
    | zero => simp
    | succ m => simpa [List.replicate] using ih m

lemma sqrt_dotProduct_self_pos {v : List ℝ} (hv : ∃ x ∈ v, x ≠ 0) :
    0 < Real.sqrt (dotProduct v v) :=
  Real.sqrt_pos.mpr (dotProduct_self_pos hv)

lemma cosineSimilarityStore_self {v : List ℝ} (hv : ∃ x ∈ v, x ≠ 0) :
    cosineSimilarityStore v v = some 1 := by
  have hpos := sqrt_dotProduct_self_pos hv
  have hS := dotProduct_self_pos hv
  unfold cosineSimilarityStore
  rw [if_neg (by simp), if_neg (by push_neg; exact ⟨ne_of_gt hpos, ne_of_gt hpos⟩)]
  rw [Real.mul_self_sqrt (le_of_lt hS)]
  rw [div_self (ne_of_gt hS)]

lemma cosineSimilarityMerge_self {v : List ℝ} (hv : ∃ x ∈ v, x ≠ 0) :
    cosineSimilarityMerge v v = 1 := by
  have hpos := sqrt_dotProduct_self_pos hv
  have hS := dotProduct_self_pos hv
  unfold cosineSimilarityMerge
  rw [if_neg (by simp), if_neg (by positivity)]
  rw [Real.mul_self_sqrt (le_of_lt hS)]
  exact div_self (ne_of_gt hS)

lemma dotProduct_neg_self (v : List ℝ) :
    dotProduct (v.map (fun x => -x)) (v.map (fun x => -x)) = dotProduct v v := by
  unfold dotProduct
  induction v with
  | nil => rfl
  | cons x xs ih =>
    simp only [List.map_cons, List.zipWith_cons_cons, List.sum_cons, neg_mul_neg]
    rw [ih]

lemma cosineSimilarityStore_neg {v : List ℝ} (hv : ∃ x ∈ v, x ≠ 0) :
    cosineSimilarityStore v (v.map (fun x => -x)) = some (-1) := by
  have hpos := sqrt_dotProduct_self_pos hv
  have hS := dotProduct_self_pos hv
  unfold cosineSimilarityStore
  rw [if_neg (by simp), dotProduct_neg_self]
  rw [if_neg (by push_neg; exact ⟨ne_of_gt hpos, ne_of_gt hpos⟩)]
  rw [Real.mul_self_sqrt (le_of_lt hS), dotProduct_neg_right]
  rw [neg_div, div_self (ne_of_gt hS)]

lemma cosineSimilarityMerge_neg {v : List ℝ} (hv : ∃ x ∈ v, x ≠ 0) :
    cosineSimilarityMerge v (v.map (fun x => -x)) = -1 := by
  have hpos := sqrt_dotProduct_self_pos hv
  have hS := dotProduct_self_pos hv
  unfold cosineSimilarityMerge
  rw [if_neg (by simp), dotProduct_neg_self]
  rw [if_neg (by positivity)]
  rw [Real.mul_self_sqrt (le_of_lt hS), dotProduct_neg_right]
  rw [neg_div, div_self (ne_of_gt hS)]

lemma cosineSimilarityStore_zero (w : List ℝ) :
    cosineSimilarityStore w (List.replicate w.length 0) = some 0 := by
  unfold cosineSimilarityStore
  rw [if_neg (by simp)]
  rw [if_pos]
  right
  have : dotProduct (List.replicate w.length (0 : ℝ)) (List.replicate w.length 0) = 0 := by
    simpa using dotProduct_zero_right (List.replicate w.length 0) w.length
  rw [this, Real.sqrt_zero]

lemma cosineSimilarityMerge_zero (w : List ℝ) :
    cosineSimilarityMerge w (List.replicate w.length 0) = 0 := by
  unfold cosineSimilarityMerge
  rw [if_neg (by simp)]
  have : dotProduct (List.replicate w.length (0 : ℝ)) (List.replicate w.length 0) = 0 := by
    simpa using dotProduct_zero_right (List.replicate w.length 0) w.length
  rw [if_pos (by rw [this, Real.sqrt_zero, mul_zero])]

lemma cosineSimilarityStore_comm (a b : List ℝ) :
    cosineSimilarityStore a b = cosineSimilarityStore b a := by
  unfold cosineSimilarityStore
  by_cases h : a.length = b.length
  · rw [if_neg (show ¬a.length ≠ b.length by simp [h]),
      if_neg (show ¬b.length ≠ a.length by simp [h]),
      dotProduct_comm a b]
    by_cases hz : Real.sqrt (dotProduct a a) = 0 ∨ Real.sqrt (dotProduct b b) = 0
    · rw [if_pos hz, if_pos (Or.symm hz)]
    · rw [if_neg hz, if_neg (fun hc => hz (Or.symm hc)), mul_comm]
  · rw [if_pos (show a.length ≠ b.length from h),
      if_pos (show b.length ≠ a.length from fun hc => h hc.symm)]

lemma cosineSimilarityMerge_comm (a b : List ℝ) :
    cosineSimilarityMerge a b = cosineSimilarityMerge b a := by
  unfold cosineSimilarityMerge
  by_cases h : a.length = b.length
  · rw [if_neg (show ¬a.length ≠ b.length by simp [h]),
      if_neg (show ¬b.length ≠ a.length by simp [h]),
      dotProduct_comm a b, mul_comm (Real.sqrt (dotProduct a a))]
  · rw [if_pos (show a.length ≠ b.length from h),
      if_pos (show b.length ≠ a.length from fun hc => h hc.symm)]

/-- C6: the cosine-similarity functions (both the vector-store version and
the Redundancy-Merger version) satisfy, over real vectors:
`similarity(v, v) = 1` for every non-zero `v`; `similarity(v, -v) = -1`;
`similarity(w, 0) = 0` for every `w` (the zero-norm cases are
special-cased to `0`, never undefined); and symmetry
`similarity(a, b) = similarity(b, a)`. -/
theorem cosine_similarity_properties (v a b : List ℝ) (hv : ∃ x ∈ v, x ≠ 0) :
    cosineSimilarityStore v v = some 1 ∧
    cosineSimilarityMerge v v = 1 ∧
    cosineSimilarityStore v (v.map (fun x => -x)) = some (-1) ∧
    cosineSimilarityMerge v (v.map (fun x => -x)) = -1 ∧
    (∀ w : List ℝ, cosineSimilarityStore w (List.replicate w.length 0) = some 0 ∧
      cosineSimilarityMerge w (List.replicate w.length 0) = 0) ∧
    cosineSimilarityStore a b = cosineSimilarityStore b a ∧
    cosineSimilarityMerge a b = cosineSimilarityMerge b a :=
  ⟨cosineSimilarityStore_self hv, cosineSimilarityMerge_self hv,
   cosineSimilarityStore_neg hv, cosineSimilarityMerge_neg hv,
   fun w => ⟨cosineSimilarityStore_zero w, cosineSimilarityMerge_zero w⟩,
   cosineSimilarityStore_comm a b, cosineSimilarityMerge_comm a b⟩

/-- Witness for C6 at the concrete vectors v = [3, 4], a = [1, 2], b = [2, 1]. -/
theorem cosine_similarity_properties_witness :
    (∃ x ∈ [(3 : ℝ), 4], x ≠ 0) ∧
    (cosineSimilarityStore [(3 : ℝ), 4] [(3 : ℝ), 4] = some 1 ∧
     cosineSimilarityMerge [(3 : ℝ), 4] [(3 : ℝ), 4] = 1 ∧
     cosineSimilarityStore [(3 : ℝ), 4] ([(3 : ℝ), 4].map (fun x => -x)) = some (-1) ∧
     cosineSimilarityMerge [(3 : ℝ), 4] ([(3 : ℝ), 4].map (fun x => -x)) = -1 ∧
     (∀ w : List ℝ, cosineSimilarityStore w (List.replicate w.length 0) = some 0 ∧
       cosineSimilarityMerge w (List.replicate w.length 0) = 0) ∧
     cosineSimilarityStore [(1 : ℝ), 2] [(2 : ℝ), 1] = cosineSimilarityStore [(2 : ℝ), 1] [(1 : ℝ), 2] ∧
     cosineSimilarityMerge [(1 : ℝ), 2] [(2 : ℝ), 1] = cosineSimilarityMerge [(2 : ℝ), 1] [(1 : ℝ), 2]) :=
  ⟨⟨3, by norm_num⟩,
   cosine_similarity_properties [(3 : ℝ), 4] [(1 : ℝ), 2] [(2 : ℝ), 1] ⟨3, by norm_num⟩⟩

lemma searchCompute_forall₂ {q : List ℝ} {es : List StoredEmbedding} {rs : List SearchResult}
    (h : searchCompute q es = some rs) : List.Forall₂ (resultOf q) es rs := by
  induction es generalizing rs with
  | nil =>
    simp only [searchCompute, Option.some_inj] at h
    subst h; exact List.Forall₂.nil
  | cons e es ih =>
    simp only [searchCompute] at h
    cases hc : cosineSimilarityStore q e.embedding with
    | none => rw [hc] at h; exact absurd h (by simp)
    | some s =>
      rw [hc] at h
      cases hr : searchCompute q es with
      | none => rw [hr] at h; exact absurd h (by simp)
      | some rs₀ =>
        rw [hr] at h
        simp only [Option.some_inj] at h
        subst h
        exact List.Forall₂.cons ⟨rfl, rfl, rfl, rfl, hc⟩ (ih hr)

lemma forall₂_mem_right {R : StoredEmbedding → SearchResult → Prop}
    {es : List StoredEmbedding} {rs : List SearchResult}
    (h : List.Forall₂ R es rs) {r : SearchResult} (hr : r ∈ rs) :
    ∃ e ∈ es, R e r := by
  induction h with
  | nil => cases hr
  | cons hR _ ih =>
    rcases List.mem_cons.mp hr with rfl | hmem
    · exact ⟨_, List.mem_cons_self _ _, hR⟩
    · rcases ih hmem with ⟨e, he, hRe⟩
      exact ⟨e, List.mem_cons_of_mem _ he, hRe⟩

lemma mem_filterGE {θ : ℝ} {rs : List SearchResult} {r : SearchResult} :
    r ∈ filterGE θ rs ↔ r ∈ rs ∧ θ ≤ r.similarity := by
  induction rs with
  | nil => simp [filterGE]
  | cons x xs ih =>
    simp only [filterGE]
    by_cases hx : θ ≤ x.similarity
    · rw [if_pos hx]
      constructor
      · intro hm
        rcases List.mem_cons.mp hm with rfl | hm
        · exact ⟨List.mem_cons_self _ _, hx⟩
        · rcases ih.mp hm with ⟨h1, h2⟩
          exact ⟨List.mem_cons_of_mem _ h1, h2⟩
      · rintro ⟨hm, hθ⟩
        rcases List.mem_cons.mp hm with rfl | hm
        · exact List.mem_cons_self _ _
        · exact List.mem_cons_of_mem _ (ih.mpr ⟨hm, hθ⟩)
    · rw [if_neg hx]
      constructor
      · intro hm
        rcases ih.mp hm with ⟨h1, h2⟩
        exact ⟨List.mem_cons_of_mem _ h1, h2⟩
      · rintro ⟨hm, hθ⟩
        rcases List.mem_cons.mp hm with rfl | hm
        · exact absurd hθ hx
        · exact ih.mpr ⟨hm, hθ⟩

lemma insertDesc_perm (r : SearchResult) (l : List SearchResult) :
    List.Perm (insertDesc r l) (r :: l) := by
  induction l with
  | nil => exact List.Perm.refl _
  | cons x xs ih =>
    simp only [insertDesc]
    by_cases h : r.similarity < x.similarity
    · rw [if_pos h]
      exact (ih.cons x).trans (List.Perm.swap r x xs)
    · rw [if_neg h]

lemma sortDesc_perm (l : List SearchResult) : List.Perm (sortDesc l) l := by
  induction l with
  | nil => exact List.Perm.refl _
  | cons r rs ih => exact (insertDesc_perm r (sortDesc rs)).trans (ih.cons r)

lemma insertDesc_pairwise {r : SearchResult} {l : List SearchResult}
    (h : List.Pairwise (fun a b => b.similarity ≤ a.similarity) l) :
    List.Pairwise (fun a b => b.similarity ≤ a.similarity) (insertDesc r l) := by
  induction l with
  | nil => simp [insertDesc]
  | cons x xs ih =>
    rcases List.pairwise_cons.mp h with ⟨hx, hxs⟩
    simp only [insertDesc]
    by_cases hlt : r.similarity < x.similarity
    · rw [if_pos hlt]
      refine List.pairwise_cons.mpr ⟨?_, ih hxs⟩
      intro y hy
      have := (insertDesc_perm r xs).mem_iff.mp hy
      rcases List.mem_cons.mp this with rfl | hmem
      · exact le_of_lt hlt
      · exact hx y hmem
    · rw [if_neg hlt]
      refine List.pairwise_cons.mpr ⟨?_, h⟩
      intro y hy
      rcases List.mem_cons.mp hy with rfl | hmem
      · exact le_of_not_lt hlt
      · exact le_trans (hx y hmem) (le_of_not_lt hlt)

lemma sortDesc_pairwise (l : List SearchResult) :
    List.Pairwise (fun a b => b.similarity ≤ a.similarity) (sortDesc l) := by
  induction l with
  | nil => exact List.Pairwise.nil
  | cons r rs ih => exact insertDesc_pairwise ih

/-- C1: for every store content, owner id, query vector, `topK` and
`min_similarity`, a successful `LocalVectorStore.search` returns only
records stored under that owner (so, whenever every stored record carries
the owner of its document, never a chunk of another owner), keeps exactly
the candidates whose cosine similarity is at least the threshold, sorts
them in descending order of similarity and returns at most the first
`topK` of them. -/
theorem vectorStore_search_spec
    (db : List StoredEmbedding) (q : List ℝ) (owner : String) (topK : Nat) (θ : ℝ)
    (docOwner : String → String)
    (hinv : ∀ e ∈ db, docOwner e.documentId = e.userId)
    (res : List SearchResult)
    (h : search db q owner topK θ = some res) :
    (∀ r ∈ res, docOwner r.documentId = owner) ∧
    (∀ r ∈ res, θ ≤ r.similarity) ∧
    List.Pairwise (fun a b => b.similarity ≤ a.similarity) res ∧
    res.length ≤ topK ∧
    (∃ results l, List.Forall₂ (resultOf q) (embeddingsByUser db owner) results ∧
      List.Perm l (filterGE θ results) ∧
      List.Pairwise (fun a b => b.similarity ≤ a.similarity) l ∧
      res = l.take topK) := by
  unfold search at h
  by_cases hempty : (embeddingsByUser db owner).isEmpty
  · rw [if_pos hempty, Option.some_inj] at h
    subst h
    have : embeddingsByUser db owner = [] := List.isEmpty_iff.mp hempty
    refine ⟨by simp, by simp, List.Pairwise.nil, by simp, [], [], ?_, ?_, List.Pairwise.nil, by simp [filterGE]⟩
    · rw [this]; exact List.Forall₂.nil
    · simp [filterGE]
  · rw [if_neg hempty] at h
    cases hc : searchCompute q (embeddingsByUser db owner) with
    | none => rw [hc] at h; exact absurd h (by simp)
    | some results =>
      rw [hc] at h
      simp only [Option.some_inj] at h
      have hcorr := searchCompute_forall₂ hc
      have hmem_res : ∀ r ∈ res, r ∈ results ∧ θ ≤ r.similarity := by
        intro r hr
        rw [← h] at hr
        have h1 : r ∈ sortDesc (filterGE θ results) := List.mem_of_mem_take hr
        have h2 : r ∈ filterGE θ results := (sortDesc_perm _).mem_iff.mp h1
        exact mem_filterGE.mp h2
      refine ⟨?_, fun r hr => (hmem_res r hr).2, ?_, ?_,
        results, sortDesc (filterGE θ results), hcorr, sortDesc_perm _, sortDesc_pairwise _, h.symm⟩
      · intro r hr
        rcases forall₂_mem_right hcorr (hmem_res r hr).1 with ⟨e, he, hRe⟩
        have heuser : e.userId = owner := by
          have := List.mem_filter.mp he
          simpa using this.2
        have hedb : e ∈ db := (List.mem_filter.mp he).1
        rw [hRe.2.1, hinv e hedb, heuser]
      · rw [← h]
        exact (sortDesc_pairwise _).sublist (List.take_sublist _ _)
      · rw [← h]
        simp

lemma searchCompute_mismatch {q : List ℝ} {es : List StoredEmbedding}
    (h : ∃ e ∈ es, e.embedding.length ≠ q.length) : searchCompute q es = none := by
  induction es with
  | nil => simp at h
  | cons e es ih =>
    rcases h with ⟨e₀, hmem, hlen⟩
    rcases List.mem_cons.mp hmem with rfl | hmem₀
    · have : cosineSimilarityStore q e₀.embedding = none := by
        unfold cosineSimilarityStore
        rw [if_pos (fun hc => hlen hc.symm)]
      simp only [searchCompute, this]
    · have := ih ⟨e₀, hmem₀, hlen⟩
      simp only [searchCompute, this]
      cases cosineSimilarityStore q e.embedding <;> rfl

/-- C7: a length mismatch between the query vector and any stored
candidate embedding of the requested owner makes the whole `search` call
fail (the thrown error propagates, modelled as `none`); it is not turned
into a zero similarity score. -/
theorem search_length_mismatch_is_error
    (db : List StoredEmbedding) (q : List ℝ) (owner : String) (topK : Nat) (θ : ℝ)
    (h : ∃ e ∈ embeddingsByUser db owner, e.embedding.length ≠ q.length) :
    search db q owner topK θ = none := by
  unfold search
  have hne : ¬(embeddingsByUser db owner).isEmpty := by
    rcases h with ⟨e, hmem, _⟩
    intro hempty
    rw [List.isEmpty_iff.mp hempty] at hmem
    cases hmem
  rw [if_neg hne, searchCompute_mismatch h]

lemma embeddingsByUser_W : embeddingsByUser [e1W, e2W] "A" = [e1W] := by
  simp [embeddingsByUser, e1W, e2W]

lemma searchW_eval : search [e1W, e2W] [(1 : ℝ), 0] "A" 5 0 = some [r1W] := by
  have hcos : cosineSimilarityStore [(1 : ℝ), 0] [(1 : ℝ), 0] = some 1 :=
    cosineSimilarityStore_self ⟨1, by norm_num⟩
  unfold search
  rw [embeddingsByUser_W]
  rw [if_neg (by simp)]
  have hsc : searchCompute [(1 : ℝ), 0] [e1W] = some [r1W] := by
    simp only [searchCompute, e1W, hcos, r1W]
  rw [hsc]
  simp only [filterGE, r1W]
  rw [if_pos (by norm_num)]
  simp [sortDesc, insertDesc]

lemma hinvW : ∀ e ∈ [e1W, e2W], docOwnerW e.documentId = e.userId := by
  intro e he
  simp only [List.mem_cons, List.not_mem_nil, or_false] at he
  rcases he with rfl | rfl <;> simp [docOwnerW, e1W, e2W]

/-- Witness for C1: searching a two-owner store as owner A returns exactly
the owner-A chunk, and the conclusion of the search theorem holds for it. -/
theorem vectorStore_search_spec_witness :
    (∀ e ∈ [e1W, e2W], docOwnerW e.documentId = e.userId) ∧
    search [e1W, e2W] [(1 : ℝ), 0] "A" 5 0 = some [r1W] ∧
    ((∀ r ∈ [r1W], docOwnerW r.documentId = "A") ∧
     (∀ r ∈ [r1W], (0 : ℝ) ≤ r.similarity) ∧
     List.Pairwise (fun a b => b.similarity ≤ a.similarity) [r1W] ∧
     [r1W].length ≤ 5 ∧
     (∃ results l, List.Forall₂ (resultOf [(1 : ℝ), 0]) (embeddingsByUser [e1W, e2W] "A") results ∧
       List.Perm l (filterGE 0 results) ∧
       List.Pairwise (fun a b => b.similarity ≤ a.similarity) l ∧
       [r1W] = l.take 5)) :=
  ⟨hinvW, searchW_eval,
   vectorStore_search_spec [e1W, e2W] [(1 : ℝ), 0] "A" 5 0 docOwnerW hinvW [r1W] searchW_eval⟩

lemma mismatchW : ∃ e ∈ embeddingsByUser [e3W] "A",
    e.embedding.length ≠ ([(1 : ℝ), 0]).length := by
  refine ⟨e3W, ?_, by simp [e3W]⟩
  simp [embeddingsByUser, e3W]

/-- Witness for C7: a stored 3-dimensional embedding makes a search with a
2-dimensional query fail outright. -/
theorem search_length_mismatch_is_error_witness :
    (∃ e ∈ embeddingsByUser [e3W] "A", e.embedding.length ≠ ([(1 : ℝ), 0]).length) ∧
    search [e3W] [(1 : ℝ), 0] "A" 5 0 = none :=
  ⟨mismatchW, search_length_mismatch_is_error [e3W] [(1 : ℝ), 0] "A" 5 0 mismatchW⟩


lemma chunkLoop_step (n : Nat) (acc : List (List Char)) :
    chunkLoop (List.replicate 5 'a') 2 2 (n + 1) 1 acc =
      chunkLoop (List.replicate 5 'a') 2 2 n 1 (acc ++ [['a', 'a']]) := by
  simp only [chunkLoop, List.length_replicate]
  have hslice : trimChars (jsSlice (List.replicate 5 'a') 1 3) = ['a', 'a'] := by decide
  norm_num [min_def, hslice]

lemma chunkLoop_stuck : ∀ (fuel : Nat) (acc : List (List Char)),
    chunkLoop (List.replicate 5 'a') 2 2 fuel 1 acc = none := by
  intro fuel
  induction fuel with
  | zero => intro acc; rfl
  | succ n ih =>
    intro acc
    rw [chunkLoop_step n acc]
    exact ih (acc ++ [['a', 'a']])

lemma chunkLoop_first (n : Nat) :
    chunkLoop (List.replicate 5 'a') 2 2 (n + 1) 0 [] =
      chunkLoop (List.replicate 5 'a') 2 2 n 1 [['a', 'a']] := by
  simp only [chunkLoop, List.length_replicate]
  have hslice : trimChars (jsSlice (List.replicate 5 'a') 0 2) = ['a', 'a'] := by decide
  norm_num [min_def, hslice]

/-- C4 (refutation, code bug): `chunkText` does NOT terminate for every
input text and all parameter values.  With `chunkSize = 2`, `overlap = 2`
and the five-character text `aaaaa`, after the first iteration `start`
stays at `1` forever: the advance `start = end - overlap` does not move it
and the non-progress guard `start <= chunks.length * (chunkSize - overlap)`
compares `1` against `0` and never fires, contradicting the comment in the
source (`Ensure we are making progress (prevent infinite loop)`).  For
every fuel bound the loop fails to reach the end of the text. -/
theorem chunkText_does_not_always_terminate :
    ∀ fuel : Nat, chunkText (List.replicate 5 'a') 2 2 false fuel = none := by
  intro fuel
  unfold chunkText
  rw [if_neg (by simp)]
  cases fuel with
  | zero => rfl
  | succ n =>
    rw [chunkLoop_first]
    exact chunkLoop_stuck n [['a', 'a']]

lemma mergePass_pair (c1 c2 : List Char) (e1 e2 : List ℝ) (θ : ℝ) :
    mergePass [c1, c2] [e1, e2] θ [0, 1] [] =
      if θ ≤ cosineSimilarityMerge e1 e2
      then ([mergeClusterText [c1, c2]], [avgEmbedding e1.length 2 [e1, e2]])
      else ([c1, c2], [e1, e2]) := by
  by_cases h : θ ≤ cosineSimilarityMerge e1 e2
  · rw [if_pos h]
    simp [mergePass, collectSimilar, h, List.getD_cons_zero, List.getD_cons_succ]
  · rw [if_neg h]
    simp [mergePass, collectSimilar, h, List.getD_cons_zero, List.getD_cons_succ]

lemma sqrt_100 : Real.sqrt 100 = 10 := by
  rw [show (100 : ℝ) = 10 ^ 2 by norm_num, Real.sqrt_sq (by norm_num : (0 : ℝ) ≤ 10)]

lemma simC8 : cosineSimilarityMerge [(1 : ℝ), 0, 0, 0] [(9 : ℝ), 3, 3, 1] = 9 / 10 := by
  unfold cosineSimilarityMerge
  rw [if_neg (by simp)]
  have hd1 : dotProduct [(1 : ℝ), 0, 0, 0] [(1 : ℝ), 0, 0, 0] = 1 := by
    norm_num [dotProduct]
  have hd2 : dotProduct [(9 : ℝ), 3, 3, 1] [(9 : ℝ), 3, 3, 1] = 100 := by
    norm_num [dotProduct]
  have hd12 : dotProduct [(1 : ℝ), 0, 0, 0] [(9 : ℝ), 3, 3, 1] = 9 := by
    norm_num [dotProduct]
  rw [hd1, hd2, hd12, Real.sqrt_one, sqrt_100]
  rw [if_neg (by norm_num)]
  norm_num

lemma mergeSimilarChunks_pair (c1 c2 : List Char) (e1 e2 : List ℝ) (θ : ℝ) :
    mergeSimilarChunks [c1, c2] [e1, e2] θ =
      some (if θ ≤ cosineSimilarityMerge e1 e2
        then ([mergeClusterText [c1, c2]], [avgEmbedding e1.length 2 [e1, e2]])
        else ([c1, c2], [e1, e2])) := by
  unfold mergeSimilarChunks
  rw [if_neg (by simp)]
  rw [show List.range ([c1, c2].length) = [0, 1] from rfl]
  rw [mergePass_pair]

/-- C8: in the Redundancy Merger a later chunk is collected into the
cluster of the current seed exactly when its cosine similarity to the seed
meets or exceeds the threshold (inclusive boundary); concretely, the
embeddings `[1,0,0,0]` and `[9,3,3,1]` have cosine similarity exactly
`0.90` and the two chunks are merged into one at `threshold = 0.90` but
kept separate at `threshold = 0.901`. -/
theorem merge_threshold_boundary_inclusive :
    (∀ (θ : ℝ) (c1 c2 : List Char) (e1 e2 : List ℝ),
      (mergeSimilarChunks [c1, c2] [e1, e2] θ).map (fun p => p.1.length) =
        some (if θ ≤ cosineSimilarityMerge e1 e2 then 1 else 2)) ∧
    cosineSimilarityMerge [(1 : ℝ), 0, 0, 0] [(9 : ℝ), 3, 3, 1] = 9 / 10 ∧
    (mergeSimilarChunks [['x'], ['y']] [[(1 : ℝ), 0, 0, 0], [(9 : ℝ), 3, 3, 1]]
        (9 / 10)).map (fun p => p.1.length) = some 1 ∧
    (mergeSimilarChunks [['x'], ['y']] [[(1 : ℝ), 0, 0, 0], [(9 : ℝ), 3, 3, 1]]
        (901 / 1000)).map (fun p => p.1.length) = some 2 := by
  have hgen : ∀ (θ : ℝ) (c1 c2 : List Char) (e1 e2 : List ℝ),
      (mergeSimilarChunks [c1, c2] [e1, e2] θ).map (fun p => p.1.length) =
        some (if θ ≤ cosineSimilarityMerge e1 e2 then 1 else 2) := by
    intro θ c1 c2 e1 e2
    rw [mergeSimilarChunks_pair]
    by_cases h : θ ≤ cosineSimilarityMerge e1 e2
    · rw [if_pos h, if_pos h]; simp
    · rw [if_neg h, if_neg h]; simp
  refine ⟨hgen, simC8, ?_, ?_⟩
  · have h := hgen (9 / 10) ['x'] ['y'] [(1 : ℝ), 0, 0, 0] [(9 : ℝ), 3, 3, 1]
    rw [simC8] at h
    rw [h, if_pos (by norm_num)]
  · have h := hgen (901 / 1000) ['x'] ['y'] [(1 : ℝ), 0, 0, 0] [(9 : ℝ), 3, 3, 1]
    rw [simC8] at h
    rw [h, if_neg (by norm_num)]

/-- C10: the cosine similarity used inside the Redundancy Merger is total:
on vectors of different lengths it returns 0 instead of raising (in
contrast to the vector-store version, which raises), so for any positive
threshold a mismatched-length chunk pair is silently left unmerged. -/
theorem mergeCosine_total_and_mismatch_not_merged
    (a b : List ℝ) (hab : a.length ≠ b.length) (θ : ℝ) (hθ : 0 < θ)
    (c1 c2 : List Char) :
    cosineSimilarityMerge a b = 0 ∧
    cosineSimilarityStore a b = none ∧
    mergeSimilarChunks [c1, c2] [a, b] θ = some ([c1, c2], [a, b]) := by
  have h0 : cosineSimilarityMerge a b = 0 := by
    unfold cosineSimilarityMerge; rw [if_pos hab]
  refine ⟨h0, by unfold cosineSimilarityStore; rw [if_pos hab], ?_⟩
  rw [mergeSimilarChunks_pair]
  rw [if_neg (by rw [h0]; exact not_le.mpr hθ)]

/-- Witness for C10 at vectors of lengths 1 and 2 with threshold 1/2. -/
theorem mergeCosine_total_and_mismatch_not_merged_witness :
    ([(1 : ℝ)].length ≠ [(1 : ℝ), 2].length) ∧ (0 : ℝ) < 1 / 2 ∧
    (cosineSimilarityMerge [(1 : ℝ)] [(1 : ℝ), 2] = 0 ∧
     cosineSimilarityStore [(1 : ℝ)] [(1 : ℝ), 2] = none ∧
     mergeSimilarChunks [['x'], ['y']] [[(1 : ℝ)], [(1 : ℝ), 2]] (1 / 2) =
       some ([['x'], ['y']], [[(1 : ℝ)], [(1 : ℝ), 2]])) :=
  ⟨by simp, by norm_num,
   mergeCosine_total_and_mismatch_not_merged [(1 : ℝ)] [(1 : ℝ), 2] (by simp) (1 / 2)
     (by norm_num) ['x'] ['y']⟩

lemma sqrt_25 : Real.sqrt 25 = 5 := by
  rw [show (25 : ℝ) = 5 ^ 2 by norm_num, Real.sqrt_sq (by norm_num : (0 : ℝ) ≤ 5)]

lemma simAB : cosineSimilarityMerge [(1 : ℝ), 0] [(3 : ℝ), 4] = 3 / 5 := by
  unfold cosineSimilarityMerge
  rw [if_neg (by simp)]
  have ha : dotProduct [(1 : ℝ), 0] [(1 : ℝ), 0] = 1 := by norm_num [dotProduct]
  have hb : dotProduct [(3 : ℝ), 4] [(3 : ℝ), 4] = 25 := by norm_num [dotProduct]
  have hab : dotProduct [(1 : ℝ), 0] [(3 : ℝ), 4] = 3 := by norm_num [dotProduct]
  rw [ha, hb, hab, Real.sqrt_one, sqrt_25, one_mul]
  rw [if_neg (by norm_num)]

lemma simAC : cosineSimilarityMerge [(1 : ℝ), 0] [(0 : ℝ), 1] = 0 := by
  unfold cosineSimilarityMerge
  rw [if_neg (by simp)]
  have ha : dotProduct [(1 : ℝ), 0] [(1 : ℝ), 0] = 1 := by norm_num [dotProduct]
  have hb : dotProduct [(0 : ℝ), 1] [(0 : ℝ), 1] = 1 := by norm_num [dotProduct]
  have hab : dotProduct [(1 : ℝ), 0] [(0 : ℝ), 1] = 0 := by norm_num [dotProduct]
  rw [ha, hb, hab, Real.sqrt_one, one_mul]
  rw [if_neg (by norm_num)]
  norm_num

lemma simAvgC : (1 : ℝ) / 2 ≤ cosineSimilarityMerge [(2 : ℝ), 2] [(0 : ℝ), 1] := by
  unfold cosineSimilarityMerge
  rw [if_neg (by simp)]
  have h8 : dotProduct [(2 : ℝ), 2] [(2 : ℝ), 2] = 8 := by norm_num [dotProduct]
  have h1 : dotProduct [(0 : ℝ), 1] [(0 : ℝ), 1] = 1 := by norm_num [dotProduct]
  have h2 : dotProduct [(2 : ℝ), 2] [(0 : ℝ), 1] = 2 := by norm_num [dotProduct]
  rw [h8, h1, h2, Real.sqrt_one, mul_one]
  have hpos : 0 < Real.sqrt 8 := Real.sqrt_pos.mpr (by norm_num)
  rw [if_neg (ne_of_gt hpos)]
  rw [le_div_iff₀ hpos]
  have hle : Real.sqrt 8 ≤ 4 := by
    rw [show (4 : ℝ) = Real.sqrt 16 by
      rw [show (16 : ℝ) = 4 ^ 2 by norm_num, Real.sqrt_sq (by norm_num : (0 : ℝ) ≤ 4)]]
    exact Real.sqrt_le_sqrt (by norm_num)
  linarith

lemma pass1_eval :
    mergeSimilarChunks [['a'], ['b'], ['c']] [[(1 : ℝ), 0], [(3 : ℝ), 4], [(0 : ℝ), 1]]
        (1 / 2) =
      some ([['a', ' ', 'b', '.'], ['c']], [[(2 : ℝ), 2], [(0 : ℝ), 1]]) := by
  have hAB : (1 : ℝ) / 2 ≤ cosineSimilarityMerge [(1 : ℝ), 0] [(3 : ℝ), 4] := by
    rw [simAB]; norm_num
  have hAC : ¬((1 : ℝ) / 2 ≤ cosineSimilarityMerge [(1 : ℝ), 0] [(0 : ℝ), 1]) := by
    rw [simAC]; norm_num
  have hmt : mergeClusterText [['a'], ['b']] = ['a', ' ', 'b', '.'] := by decide
  unfold mergeSimilarChunks
  rw [if_neg (by simp)]
  rw [show List.range ([['a'], ['b'], ['c']].length) = [0, 1, 2] from rfl]
  simp only [mergePass, collectSimilar, List.getD_cons_zero, List.getD_cons_succ,
    List.mem_cons, List.not_mem_nil, hAB, hAC, if_true, if_false, hmt]
  norm_num [avgEmbedding, addScaled, mergeClusterText]
  decide

/-- C5 (refutation): the Redundancy Merger is NOT idempotent.  With
threshold 1/2 and embeddings `[1,0]`, `[3,4]`, `[0,1]`, the first pass
merges the first two chunks (similarity 3/5 ≥ 1/2) into an averaged
embedding `[2,2]` and leaves `[0,1]` alone (similarity 0 to the seed), so
two chunks remain; but the averaged output `[2,2]` has similarity
`2/sqrt 8 ≥ 1/2` to the surviving `[0,1]`, so a second pass with the same
threshold merges again, reducing two chunks to one. -/
theorem merge_second_pass_reduces_further :
    (mergeSimilarChunks [['a'], ['b'], ['c']]
        [[(1 : ℝ), 0], [(3 : ℝ), 4], [(0 : ℝ), 1]] (1 / 2)).map
      (fun p => p.1.length) = some 2 ∧
    ((mergeSimilarChunks [['a'], ['b'], ['c']]
        [[(1 : ℝ), 0], [(3 : ℝ), 4], [(0 : ℝ), 1]] (1 / 2)).bind
      (fun p => mergeSimilarChunks p.1 p.2 (1 / 2))).map
      (fun p => p.1.length) = some 1 := by
  constructor
  · rw [pass1_eval]; rfl
  · rw [pass1_eval]
    show (mergeSimilarChunks [['a', ' ', 'b', '.'], ['c']]
      [[(2 : ℝ), 2], [(0 : ℝ), 1]] (1 / 2)).map (fun p => p.1.length) = some 1
    rw [mergeSimilarChunks_pair]
    rw [if_pos simAvgC]
    rfl

lemma mergePass_fst_length_le (chunks : List (List Char)) (embs : List (List ℝ)) (θ : ℝ) :
    ∀ (idxs processed : List Nat),
      (mergePass chunks embs θ idxs processed).1.length ≤ idxs.length := by
  intro idxs
  induction idxs with
  | nil => intro processed; simp [mergePass]
  | cons i rest ih =>
    intro processed
    simp only [mergePass]
    by_cases hmem : i ∈ processed
    · rw [if_pos hmem]
      exact le_trans (ih processed) (by simp)
    · rw [if_neg hmem]
      by_cases hsims : (collectSimilar (embs.getD i []) θ embs processed rest).isEmpty
      · rw [if_pos hsims]
        simpa using Nat.succ_le_succ (ih (processed ++ [i]))
      · rw [if_neg hsims]
        simpa using Nat.succ_le_succ (ih _)

lemma mergePass_snd_length (chunks : List (List Char)) (embs : List (List ℝ)) (θ : ℝ) :
    ∀ (idxs processed : List Nat),
      (mergePass chunks embs θ idxs processed).2.length =
        (mergePass chunks embs θ idxs processed).1.length := by
  intro idxs
  induction idxs with
  | nil => intro processed; simp [mergePass]
  | cons i rest ih =>
    intro processed
    simp only [mergePass]
    by_cases hmem : i ∈ processed
    · rw [if_pos hmem]; exact ih processed
    · rw [if_neg hmem]
      by_cases hsims : (collectSimilar (embs.getD i []) θ embs processed rest).isEmpty
      · rw [if_pos hsims]
        simpa using ih (processed ++ [i])
      · rw [if_neg hsims]
        simpa using ih _

/-- C5 (amended): a second merge pass can reduce the output further (see
the refutation), so idempotence fails; what the merger does guarantee is
that a pass never increases the number of chunks and keeps the chunk and
embedding outputs aligned in length. -/
theorem mergeSimilarChunks_output_not_larger
    (chunks : List (List Char)) (embs : List (List ℝ)) (θ : ℝ)
    (out : List (List Char) × List (List ℝ))
    (h : mergeSimilarChunks chunks embs θ = some out) :
    out.1.length ≤ chunks.length ∧ out.2.length = out.1.length := by
  unfold mergeSimilarChunks at h
  by_cases hlen : chunks.length ≠ embs.length
  · rw [if_pos hlen] at h; cases h
  · rw [if_neg hlen, Option.some_inj] at h
    subst h
    constructor
    · simpa using mergePass_fst_length_le chunks embs θ (List.range chunks.length) []
    · exact mergePass_snd_length chunks embs θ (List.range chunks.length) []

/-- Witness for the amended C5 at the concrete three-chunk input of the
refutation: the first pass emits two chunks out of three, with aligned
embedding output. -/
theorem mergeSimilarChunks_output_not_larger_witness :
    mergeSimilarChunks [['a'], ['b'], ['c']]
        [[(1 : ℝ), 0], [(3 : ℝ), 4], [(0 : ℝ), 1]] (1 / 2) =
      some ([['a', ' ', 'b', '.'], ['c']], [[(2 : ℝ), 2], [(0 : ℝ), 1]]) ∧
    (([['a', ' ', 'b', '.'], ['c']], [[(2 : ℝ), 2], [(0 : ℝ), 1]]).1.length ≤
        [['a'], ['b'], ['c']].length ∧
      ([['a', ' ', 'b', '.'], ['c']], [[(2 : ℝ), 2], [(0 : ℝ), 1]]).2.length =
        ([['a', ' ', 'b', '.'], ['c']], [[(2 : ℝ), 2], [(0 : ℝ), 1]]).1.length) :=
  ⟨pass1_eval,
   mergeSimilarChunks_output_not_larger [['a'], ['b'], ['c']]
     [[(1 : ℝ), 0], [(3 : ℝ), 4], [(0 : ℝ), 1]] (1 / 2) _ pass1_eval⟩

/-- C2 (refutation): the delete path has no ownership check.
`deleteDocument` does not even take a caller identity, so a delete request
made on behalf of a caller other than the owner (here owner-B data,
requested by any other user) does not fail with `Unauthorized`: it
succeeds and removes the document and its embedding records, leaving
storage changed. -/
theorem deleteDocument_ignores_owner :
    deleteDocument stB "dB" = { documents := [], embeddings := [] } ∧
    deleteDocument stB "dB" ≠ stB := by
  have h : deleteDocument stB "dB" = { documents := [], embeddings := [] } := by
    simp [deleteDocument, stB, docB, embB]
  refine ⟨h, ?_⟩
  rw [h]
  intro hc
  have hlen := congrArg (fun s => s.documents.length) hc
  simp [stB] at hlen

/-- C2 (amended): the processing path enforces ownership — requesting
`processStoredDocument` on an existing document of a different owner fails
with `Unauthorized` and leaves storage completely unchanged — while the
deletion path has no ownership check at all: `deleteDocument` takes no
caller id and unconditionally removes the document and every embedding
record of it, whoever the owner is. -/
theorem process_unauthorized_rejected_delete_unchecked
    (st : StoreState) (docId userId : String) (env : ProcEnv)
    (doc : StoredDocument)
    (hclient : env.hasClient = true)
    (hdoc : getDocument st docId = some doc)
    (howner : doc.userId ≠ userId) :
    processStoredDocument st docId userId env = (.error .unauthorized, st) ∧
    (∀ (st2 : StoreState) (dId : String),
      (∀ d ∈ (deleteDocument st2 dId).documents, d.id ≠ dId) ∧
      (∀ e ∈ (deleteDocument st2 dId).embeddings, e.documentId ≠ dId)) := by
  constructor
  · unfold processStoredDocument
    rw [hclient, hdoc]
    simp only [not_true_eq_false, if_false, Bool.false_eq_true]
    rw [if_pos howner]
  · intro st2 dId
    constructor
    · intro d hd heq
      rcases List.mem_filter.mp hd with ⟨_, hcond⟩
      simp [heq] at hcond
    · intro e he heq
      rcases List.mem_filter.mp he with ⟨hmemE, hcond⟩
      have hid : e.id ∈ (st2.embeddings.filter (fun x => x.documentId == dId)).map
          (fun x => x.id) :=
        List.mem_map.mpr ⟨e, List.mem_filter.mpr ⟨hmemE, by simp [heq]⟩, rfl⟩
      have hnot : e.id ∉ (st2.embeddings.filter (fun x => x.documentId == dId)).map
          (fun x => x.id) := by simpa using hcond
      exact hnot hid

/-- Witness for the amended C2: processing the owner-B document on behalf
of caller A fails with Unauthorized leaving the store untouched. -/
theorem process_unauthorized_rejected_delete_unchecked_witness :
    (envW.hasClient = true ∧ getDocument stB "dB" = some docB ∧ docB.userId ≠ "A") ∧
    (processStoredDocument stB "dB" "A" envW = (.error .unauthorized, stB) ∧
     (∀ (st2 : StoreState) (dId : String),
       (∀ d ∈ (deleteDocument st2 dId).documents, d.id ≠ dId) ∧
       (∀ e ∈ (deleteDocument st2 dId).embeddings, e.documentId ≠ dId))) :=
  ⟨⟨rfl, by simp [getDocument, stB, docB], by simp [docB]⟩,
   process_unauthorized_rejected_delete_unchecked stB "dB" "A" envW docB rfl
     (by simp [getDocument, stB, docB]) (by simp [docB])⟩


set_option maxRecDepth 10000 in
lemma chunkTextC : chunkText textC 1000 200 false 1006 =
    some [List.replicate 1000 'a', List.replicate 205 'a'] := by decide

set_option maxRecDepth 10000 in
lemma mergeC3 : mergeSimilarChunks [List.replicate 1000 'a', List.replicate 205 'a']
    [[(1 : ℝ), 0], [(0 : ℝ), 1]] (92 / 100) =
    some ([List.replicate 1000 'a', List.replicate 205 'a'],
      [[(1 : ℝ), 0], [(0 : ℝ), 1]]) := by
  rw [mergeSimilarChunks_pair, if_neg (by rw [simAC]; norm_num)]

set_option maxRecDepth 10000 in
lemma batchC3 : toBatches 90 [List.replicate 1000 'a', List.replicate 205 'a'] =
    [[List.replicate 1000 'a', List.replicate 205 'a']] := by
  simp [toBatches]

set_option maxRecDepth 10000 in
lemma buildRecordsC3 :
    buildRecords envC "dC" "A" [List.replicate 1000 'a', List.replicate 205 'a']
      [[(1 : ℝ), 0], [(0 : ℝ), 1]] = [rec0C, rec1C] := by
  unfold buildRecords
  rw [show ([List.replicate 1000 'a', List.replicate 205 'a'] : List (List Char)).length = 2
    by simp]
  rw [show List.range 2 = [0, 1] from rfl]
  simp [envC, rec0C, rec1C]

set_option maxRecDepth 10000 in
lemma processC3_fail :
    processStoredDocument ⟨[docC], []⟩ "dC" "A" envC =
      (.error .storageError, ⟨[docC], [rec0C]⟩) := by
  have hdoc : getDocument ⟨[docC], []⟩ "dC" = some docC := by simp [getDocument, docC]
  have hcsv : ((docC.mimeType == "text/csv") || strEndsWith docC.fileName ".csv") = false := by
    decide
  have hchunk : chunkText docC.textContent 1000 200 false (docC.textContent.length + 1) =
      some [List.replicate 1000 'a', List.replicate 205 'a'] := by
    rw [show docC.textContent = textC from rfl, show textC.length + 1 = 1006 by simp [textC]]
    exact chunkTextC
  have hembed : embedAll envC.embed [[List.replicate 1000 'a', List.replicate 205 'a']] =
      some [[(1 : ℝ), 0], [(0 : ℝ), 1]] := by
    simp [embedAll, envC]
  have hcommit : commitEmbeddings ⟨[docC], []⟩ [rec0C, rec1C] envC.addFails =
      (⟨[docC], [rec0C]⟩, false) := by
    simp [commitEmbeddings, envC, rec0C, rec1C]
  unfold processStoredDocument
  simp only [hdoc, hcsv, hchunk, batchC3, hembed, mergeC3, buildRecordsC3, hcommit,
    show envC.hasClient = true from rfl,
    show docC.userId = "A" from rfl,
    show docC.processed = false from rfl,
    show docC.hasFileData = false from rfl,
    show docC.textContent.isEmpty = false from rfl,
    Bool.false_eq_true, and_false, false_and, if_false, ne_eq, not_true_eq_false,
    not_false_eq_true, if_true]

set_option maxRecDepth 10000 in
lemma buildRecordsC3ok :
    buildRecords envCok "dC" "A" [List.replicate 1000 'a', List.replicate 205 'a']
      [[(1 : ℝ), 0], [(0 : ℝ), 1]] = [rec0C, rec1C] := by
  unfold buildRecords
  rw [show ([List.replicate 1000 'a', List.replicate 205 'a'] : List (List Char)).length = 2
    by simp]
  rw [show List.range 2 = [0, 1] from rfl]
  simp [envCok, envC, rec0C, rec1C]

set_option maxRecDepth 10000 in
lemma processC3_ok :
    processStoredDocument ⟨[docC], []⟩ "dC" "A" envCok =
      (.ok ⟨"dC", "a.txt", 2, 2⟩,
       ⟨[{ docC with processed := true }], [rec0C, rec1C]⟩) := by
  have hdoc : getDocument ⟨[docC], []⟩ "dC" = some docC := by simp [getDocument, docC]
  have hcsv : ((docC.mimeType == "text/csv") || strEndsWith docC.fileName ".csv") = false := by
    decide
  have hchunk : chunkText docC.textContent 1000 200 false (docC.textContent.length + 1) =
      some [List.replicate 1000 'a', List.replicate 205 'a'] := by
    rw [show docC.textContent = textC from rfl, show textC.length + 1 = 1006 by simp [textC]]
    exact chunkTextC
  have hembed : embedAll envCok.embed [[List.replicate 1000 'a', List.replicate 205 'a']] =
      some [[(1 : ℝ), 0], [(0 : ℝ), 1]] := by
    simp [embedAll, envCok, envC]
  have hcommit : commitEmbeddings ⟨[docC], []⟩ [rec0C, rec1C] envCok.addFails =
      (⟨[docC], [rec0C, rec1C]⟩, true) := by
    simp [commitEmbeddings, envCok, envC, rec0C, rec1C]
  unfold processStoredDocument
  simp only [hdoc, hcsv, hchunk, batchC3, hembed, mergeC3, buildRecordsC3ok, hcommit,
    show envCok.hasClient = true from rfl,
    show docC.userId = "A" from rfl,
    show docC.processed = false from rfl,
    show docC.hasFileData = false from rfl,
    show docC.textContent.isEmpty = false from rfl,
    Bool.false_eq_true, and_false, false_and, if_false, ne_eq, not_true_eq_false,
    not_false_eq_true, if_true]
  simp [putDocument, docC]

/-- C3 (refutation): the chunk/embedding commit of `processStoredDocument`
is NOT atomic.  The store stage issues one independent transaction per
record via `Promise.all`; in a run whose second of two writes fails, the
operation reports a storage error and the document stays unprocessed, but
the first record remains persisted: exactly one of the document's two
records is stored — neither all nor none.  The same input with no write
failure stores both records, confirming that "all" means two. -/
theorem process_commit_not_atomic :
    processStoredDocument ⟨[docC], []⟩ "dC" "A" envC =
      (.error .storageError, ⟨[docC], [rec0C]⟩) ∧
    processStoredDocument ⟨[docC], []⟩ "dC" "A" envCok =
      (.ok ⟨"dC", "a.txt", 2, 2⟩,
       ⟨[{ docC with processed := true }], [rec0C, rec1C]⟩) ∧
    ¬((processStoredDocument ⟨[docC], []⟩ "dC" "A" envC).2.embeddings.length = 0 ∨
      (processStoredDocument ⟨[docC], []⟩ "dC" "A" envC).2.embeddings.length = 2) :=
  ⟨processC3_fail, processC3_ok, by rw [processC3_fail]; simp⟩

lemma getDocument_mem {st : StoreState} {docId : String} {doc : StoredDocument}
    (h : getDocument st docId = some doc) :
    doc ∈ st.documents ∧ doc.id = docId := by
  unfold getDocument at h
  refine ⟨List.mem_of_find?_eq_some h, ?_⟩
  have := List.find?_some h
  simpa using this

lemma putDocument_ids {st : StoreState} {doc : StoredDocument}
    (h : ∃ d ∈ st.documents, d.id = doc.id) :
    (putDocument st doc).documents.map (fun d => d.id) =
      st.documents.map (fun d => d.id) := by
  unfold putDocument
  rcases h with ⟨d0, hd0, hid⟩
  rw [if_pos (List.any_eq_true.mpr ⟨d0, hd0, by simp [hid]⟩)]
  simp only [List.map_map]
  apply List.map_congr_left
  intro d _
  simp only [Function.comp]
  by_cases hd : d.id == doc.id
  · rw [if_pos hd]
    exact (eq_of_beq hd).symm
  · rw [if_neg hd]

lemma putDocument_embeddings (st : StoreState) (doc : StoredDocument) :
    (putDocument st doc).embeddings = st.embeddings := by
  unfold putDocument
  split <;> rfl

lemma putDocument_processed {st : StoreState} {doc : StoredDocument}
    (hdoc : doc.processed = false) :
    ∀ d ∈ (putDocument st doc).documents, d.processed = true →
      ∃ d0 ∈ st.documents, d0.id = d.id ∧ d0.processed = true := by
  unfold putDocument
  intro d hd hp
  by_cases hany : st.documents.any (fun x => x.id == doc.id)
  · rw [if_pos hany] at hd
    rcases List.mem_map.mp hd with ⟨d0, hd0, heq⟩
    by_cases hid : d0.id == doc.id
    · rw [if_pos hid] at heq
      subst heq
      exact absurd hp (by simp [hdoc])
    · rw [if_neg hid] at heq
      subst heq
      exact ⟨d0, hd0, rfl, hp⟩
  · rw [if_neg hany] at hd
    rcases List.mem_append.mp hd with hmem | hmem
    · exact ⟨d, hmem, rfl, hp⟩
    · simp only [List.mem_singleton] at hmem
      subst hmem
      exact absurd hp (by simp [hdoc])

lemma putDocument_mem (st : StoreState) (doc : StoredDocument) :
    doc ∈ (putDocument st doc).documents := by
  unfold putDocument
  by_cases hany : st.documents.any (fun d => d.id == doc.id)
  · rw [if_pos hany]
    rcases List.any_eq_true.mp hany with ⟨d0, hd0, hid⟩
    exact List.mem_map.mpr ⟨d0, hd0, by rw [if_pos hid]⟩
  · rw [if_neg hany]
    simp

lemma buildRecords_fields (env : ProcEnv) (docId userId : String)
    (cs : List (List Char)) (es : List (List ℝ)) :
    ∀ e ∈ buildRecords env docId userId cs es,
      e.documentId = docId ∧ e.userId = userId := by
  intro e he
  unfold buildRecords at he
  rcases List.mem_map.mp he with ⟨idx, _, rfl⟩
  exact ⟨rfl, rfl⟩

lemma buildRecords_length (env : ProcEnv) (docId userId : String)
    (cs : List (List Char)) (es : List (List ℝ)) :
    (buildRecords env docId userId cs es).length = cs.length := by
  unfold buildRecords
  simp

/-- C3 (amended): `processStoredDocument` commits as follows.  The final
state never adds or removes a document id; the embeddings store is only
extended, by records that all carry the processed document id and the
caller id; on success every built record is persisted (`chunksCreated` of
them) and the document is marked processed; on failure no document is
newly marked processed, but the records whose individual writes succeeded
may remain — the commit is not all-or-none (the document's own extracted
text is the other field saved incrementally before failure). -/
theorem processStoredDocument_commit_behavior
    (st : StoreState) (docId userId : String) (env : ProcEnv)
    (res : Except ProcError ProcessingResult) (st2 : StoreState)
    (h : processStoredDocument st docId userId env = (res, st2)) :
    st2.documents.map (fun d => d.id) = st.documents.map (fun d => d.id) ∧
    (∃ recs : List StoredEmbedding,
      st2.embeddings = st.embeddings ++ recs ∧
      ∀ e ∈ recs, e.documentId = docId ∧ e.userId = userId) ∧
    (∀ r : ProcessingResult, res = .ok r →
      ∃ recs : List StoredEmbedding,
        st2.embeddings = st.embeddings ++ recs ∧ recs.length = r.chunksCreated ∧
        ∃ d ∈ st2.documents, d.id = docId ∧ d.processed = true) ∧
    (∀ err : ProcError, res = .error err →
      ∀ d ∈ st2.documents, d.processed = true →
        ∃ d0 ∈ st.documents, d0.id = d.id ∧ d0.processed = true) := by
  unfold processStoredDocument at h
  split at h
  · -- no client configured
    injection h with h1 h2
    subst h1; subst h2
    refine ⟨rfl, ⟨[], by simp, by simp⟩, ?_, ?_⟩
    · intro r hr; cases hr
    · intro err _ d hd hp; exact ⟨d, hd, rfl, hp⟩
  · split at h
    · -- document not found
      injection h with h1 h2
      subst h1; subst h2
      refine ⟨rfl, ⟨[], by simp, by simp⟩, ?_, ?_⟩
      · intro r hr; cases hr
      · intro err _ d hd hp; exact ⟨d, hd, rfl, hp⟩
    · rename_i document hdocfound
      have hdmem := getDocument_mem hdocfound
      split at h
      · -- unauthorized
        injection h with h1 h2
        subst h1; subst h2
        refine ⟨rfl, ⟨[], by simp, by simp⟩, ?_, ?_⟩
        · intro r hr; cases hr
        · intro err _ d hd hp; exact ⟨d, hd, rfl, hp⟩
      · split at h
        · -- already processed
          injection h with h1 h2
          subst h1; subst h2
          refine ⟨rfl, ⟨[], by simp, by simp⟩, ?_, ?_⟩
          · intro r hr; cases hr
          · intro err _ d hd hp; exact ⟨d, hd, rfl, hp⟩
        · rename_i hownerOk hnotProc
          have hprocFalse : document.processed = false := by
            revert hnotProc
            cases document.processed <;> simp
          split at h
          · -- extraction threw
            injection h with h1 h2
            subst h1; subst h2
            refine ⟨rfl, ⟨[], by simp, by simp⟩, ?_, ?_⟩
            · intro r hr; cases hr
            · intro err _ d hd hp; exact ⟨d, hd, rfl, hp⟩
          · rename_i textContent st1 hextr
            -- properties of the intermediate state st1
            have hst1 : st1.embeddings = st.embeddings ∧
                st1.documents.map (fun d => d.id) = st.documents.map (fun d => d.id) ∧
                (∀ d ∈ st1.documents, d.processed = true →
                  ∃ d0 ∈ st.documents, d0.id = d.id ∧ d0.processed = true) := by
              by_cases hp0 : document.textContent.isEmpty = true ∧ document.hasFileData = true
              · rw [if_pos hp0] at hextr
                rcases Option.map_eq_some'.mp hextr with ⟨t, _, heq2⟩
                injection heq2 with ht hst1eq
                subst hst1eq
                refine ⟨putDocument_embeddings _ _, putDocument_ids ?_, ?_⟩
                · exact ⟨document, hdmem.1, rfl⟩
                · exact putDocument_processed (by simpa using hprocFalse)
              · rw [if_neg hp0] at hextr
                injection hextr with heq2
                injection heq2 with ht hst1eq
                subst hst1eq
                exact ⟨rfl, rfl, fun d hd hp => ⟨d, hd, rfl, hp⟩⟩
            rcases hst1 with ⟨hst1emb, hst1ids, hst1proc⟩
            split at h
            · -- empty extracted text
              injection h with h1 h2
              subst h1; subst h2
              refine ⟨hst1ids, ⟨[], by simp [hst1emb], by simp⟩, ?_, ?_⟩
              · intro r hr; cases hr
              · intro err _ d hd hp; exact hst1proc d hd hp
            · split at h
              · -- chunking diverged
                injection h with h1 h2
                subst h1; subst h2
                refine ⟨hst1ids, ⟨[], by simp [hst1emb], by simp⟩, ?_, ?_⟩
                · intro r hr; cases hr
                · intro err _ d hd hp; exact hst1proc d hd hp
              · rename_i chunks hchunks
                split at h
                · -- embedding service failed
                  injection h with h1 h2
                  subst h1; subst h2
                  refine ⟨hst1ids, ⟨[], by simp [hst1emb], by simp⟩, ?_, ?_⟩
                  · intro r hr; cases hr
                  · intro err _ d hd hp; exact hst1proc d hd hp
                · rename_i allEmbeddings hembeds
                  split at h
                  · -- merge length mismatch
                    injection h with h1 h2
                    subst h1; subst h2
                    refine ⟨hst1ids, ⟨[], by simp [hst1emb], by simp⟩, ?_, ?_⟩
                    · intro r hr; cases hr
                    · intro err _ d hd hp; exact hst1proc d hd hp
                  · rename_i merged hmerged
                    split at h
                    · -- a write failed: partial commit remains
                      rename_i st2' heqc
                      unfold commitEmbeddings at heqc
                      injection heqc with hst2' hall
                      injection h with h1 h2
                      subst h1; subst h2
                      subst hst2'
                      refine ⟨hst1ids, ?_, ?_, ?_⟩
                      · refine ⟨(buildRecords env docId userId merged.1 merged.2).filter
                          (fun r => !env.addFails r), by simp [hst1emb], ?_⟩
                        intro e he
                        exact buildRecords_fields env docId userId merged.1 merged.2 e
                          (List.mem_filter.mp he).1
                      · intro r hr; cases hr
                      · intro err _ d hd hp
                        exact hst1proc d hd hp
                    · -- all writes succeeded
                      rename_i st2' heqc
                      unfold commitEmbeddings at heqc
                      injection heqc with hst2' hall
                      injection h with h1 h2
                      subst h1; subst h2
                      subst hst2'
                      have hfilter : (buildRecords env docId userId merged.1 merged.2).filter
                          (fun r => !env.addFails r) =
                          buildRecords env docId userId merged.1 merged.2 := by
                        apply List.filter_eq_self.mpr
                        intro r hr
                        exact List.all_eq_true.mp hall r hr
                      have hmemid : ∃ d ∈ st1.documents, d.id = docId := by
                        have : docId ∈ st.documents.map (fun d => d.id) :=
                          List.mem_map.mpr ⟨document, hdmem.1, hdmem.2⟩
                        rw [← hst1ids] at this
                        rcases List.mem_map.mp this with ⟨d, hd, hid⟩
                        exact ⟨d, hd, hid⟩
                      have hids2 : ∀ embs2 : List StoredEmbedding,
                          (putDocument { st1 with embeddings := embs2 }
                            { document with textContent := textContent, processed := true }).documents.map (fun d => d.id) =
                          st1.documents.map (fun d => d.id) := by
                        intro embs2
                        apply putDocument_ids
                        rcases hmemid with ⟨d, hd, hid⟩
                        exact ⟨d, hd, by simpa [hdmem.2] using hid⟩
                      refine ⟨by rw [hids2, hst1ids], ?_, ?_, ?_⟩
                      · refine ⟨buildRecords env docId userId merged.1 merged.2, ?_, ?_⟩
                        · rw [putDocument_embeddings]
                          simp [hfilter, hst1emb]
                        · exact buildRecords_fields env docId userId merged.1 merged.2
                      · intro r hr
                        injection hr with hr1
                        subst hr1
                        refine ⟨buildRecords env docId userId merged.1 merged.2, ?_, ?_, ?_⟩
                        · rw [putDocument_embeddings]
                          simp [hfilter, hst1emb]
                        · exact buildRecords_length env docId userId merged.1 merged.2
                        · exact ⟨{ document with textContent := textContent, processed := true },
                            putDocument_mem _ _, hdmem.2, rfl⟩
                      · intro err herr; cases herr

/-- Witness for the amended C3 at the successful concrete run: both
records are committed and the document is marked processed. -/
theorem processStoredDocument_commit_behavior_witness :
    processStoredDocument ⟨[docC], []⟩ "dC" "A" envCok =
      (.ok ⟨"dC", "a.txt", 2, 2⟩,
       ⟨[{ docC with processed := true }], [rec0C, rec1C]⟩) ∧
    ((⟨[{ docC with processed := true }], [rec0C, rec1C]⟩ : StoreState).documents.map
        (fun d => d.id) =
      (⟨[docC], []⟩ : StoreState).documents.map (fun d => d.id) ∧
     (∃ recs : List StoredEmbedding,
       (⟨[{ docC with processed := true }], [rec0C, rec1C]⟩ : StoreState).embeddings =
         (⟨[docC], []⟩ : StoreState).embeddings ++ recs ∧
       ∀ e ∈ recs, e.documentId = "dC" ∧ e.userId = "A") ∧
     (∀ r : ProcessingResult,
       (Except.ok ⟨"dC", "a.txt", 2, 2⟩ : Except ProcError ProcessingResult) = .ok r →
       ∃ recs : List StoredEmbedding,
         (⟨[{ docC with processed := true }], [rec0C, rec1C]⟩ : StoreState).embeddings =
           (⟨[docC], []⟩ : StoreState).embeddings ++ recs ∧
         recs.length = r.chunksCreated ∧
         ∃ d ∈ (⟨[{ docC with processed := true }], [rec0C, rec1C]⟩ : StoreState).documents,
           d.id = "dC" ∧ d.processed = true) ∧
     (∀ err : ProcError,
       (Except.ok ⟨"dC", "a.txt", 2, 2⟩ : Except ProcError ProcessingResult) = .error err →
       ∀ d ∈ (⟨[{ docC with processed := true }], [rec0C, rec1C]⟩ : StoreState).documents,
         d.processed = true →
         ∃ d0 ∈ (⟨[docC], []⟩ : StoreState).documents,
           d0.id = d.id ∧ d0.processed = true)) :=
  ⟨processC3_ok,
   processStoredDocument_commit_behavior ⟨[docC], []⟩ "dC" "A" envCok
     (.ok ⟨"dC", "a.txt", 2, 2⟩)
     ⟨[{ docC with processed := true }], [rec0C, rec1C]⟩ processC3_ok⟩

/-- C9: when retrieval returns zero results, `processQuery` does not
fail: the generation service is called with no evidence documents
attached (`documents` absent from the chat request), and the call returns
the generated answer with an empty source-document list and no fabricated
source names, appending the exchange to the chat history. -/
theorem processQuery_zero_results_not_error
    (db : List StoredEmbedding) (docs : List StoredDocument)
    (history : List ChatMessage) (userId : String) (config : AgentConfig)
    (env : QueryEnv) (query : List Char) (qv : List ℝ) (answer : List Char)
    (hclient : env.hasClient = true)
    (hrag : config.useRAG = true)
    (hembed : env.embedQuery query = some [qv])
    (hsearch : search db qv userId config.topK config.similarityThreshold = some [])
    (hgen : env.gen (buildChatRequest query (some []) "command-a-03-2025"
        config.temperature config.maxTokens (some config.systemPrompt)) = some answer) :
    (buildChatRequest query (some []) "command-a-03-2025" config.temperature
        config.maxTokens (some config.systemPrompt)).documents = none ∧
    processQuery db docs history userId config env query =
      .ok ({ message := answer, sources := some [], sourceNames := none },
        history ++
          [{ id := env.newId 0, userId := userId, role := "user",
             content := query, timestamp := env.now, documentIds := none },
           { id := env.newId 1, userId := userId, role := "assistant",
             content := answer, timestamp := env.now, documentIds := some [] }]) := by
  constructor
  · simp [buildChatRequest]
  · unfold processQuery retrieveContext
    simp only [hclient, hrag, not_true_eq_false, Bool.false_eq_true, if_false, if_true,
      hembed, List.head?_cons, hsearch, List.map_nil, dedupFirst, dedupFirstAux,
      Option.map_some', hgen, List.length_nil, lt_irrefl]

/-- Witness for C9: an empty vector store makes retrieval return zero
results; the query still succeeds with an empty source list. -/
theorem processQuery_zero_results_not_error_witness :
    (queryEnvW.hasClient = true ∧ agentConfigW.useRAG = true ∧
     queryEnvW.embedQuery ['q'] = some [[(1 : ℝ)]] ∧
     search [] [(1 : ℝ)] "A" agentConfigW.topK agentConfigW.similarityThreshold =
       some [] ∧
     queryEnvW.gen (buildChatRequest ['q'] (some []) "command-a-03-2025"
       agentConfigW.temperature agentConfigW.maxTokens
       (some agentConfigW.systemPrompt)) = some ['o', 'k']) ∧
    ((buildChatRequest ['q'] (some []) "command-a-03-2025" agentConfigW.temperature
        agentConfigW.maxTokens (some agentConfigW.systemPrompt)).documents = none ∧
     processQuery [] [] [] "A" agentConfigW queryEnvW ['q'] =
       .ok ({ message := ['o', 'k'], sources := some [], sourceNames := none },
         [] ++
           [{ id := queryEnvW.newId 0, userId := "A", role := "user",
              content := ['q'], timestamp := queryEnvW.now, documentIds := none },
            { id := queryEnvW.newId 1, userId := "A", role := "assistant",
              content := ['o', 'k'], timestamp := queryEnvW.now,
              documentIds := some [] }])) :=
  ⟨⟨rfl, rfl, rfl, by simp [search, embeddingsByUser], rfl⟩,
   processQuery_zero_results_not_error [] [] [] "A" agentConfigW queryEnvW ['q']
     [(1 : ℝ)] ['o', 'k'] rfl rfl rfl (by simp [search, embeddingsByUser]) rfl⟩
